import Mathlib

/-! # dune-mmesh: interface grid factory, interface geometry, carousel driver

A shallow embedding of

* `src/dune/mmesh/interface/gridfactory.hh`  (`GridFactory< MMeshInterfaceGrid >`),
* `src/dune/mmesh/interface/geometry.hh`     (`MMeshInterfaceGridGeometry`),
* `src/dune/mmesh/test/test-carousel.cc`     (the time loop of `main`),

followed by the properties established about them.

Conventions of the embedding

* A member function that can throw is a function into `Outcome`: it either
  `returned` or has `thrown`, and in both cases carries the factory state that
  is left behind.
* `std::size_t` counters (`countBoundarySegments`, `countVertices`) count the
  entries of a `std::map` one by one, so they cannot wrap before the map itself
  is full; they are natural numbers.  `countElements` is an `unsigned int` that
  is advanced on every returning `insertElement` call, whether or not an entry
  is added, so its wrap-around at `2^32` is modelled.
* The host mesh (`MMesh`, the CGAL triangulation) is not part of the sources at
  hand; the four operations the factory calls on it are the fields of `HostOps`.
-/

namespace Dune

/-! ## `std::map` and `std::sort` -/

/-- Model of `std::map<K, V>`: a list of key/value entries with pairwise distinct
keys.  The factory only ever calls `find`, `at`, `insert` and hands the map on,
so the entries are kept in the order in which they were added. -/
abbrev StdMap (κ ν : Type) := List (κ × ν)

namespace StdMap

variable {κ ν : Type} [DecidableEq κ]

/-- Model of `std::map::find`: the value stored under `k`, `none` for `end()`. -/
def find : StdMap κ ν → κ → Option ν
  | [], _ => none
  | (k', v) :: rest, k => if k' = k then some v else find rest k

/-- Model of `std::map::insert`: adds the entry unless the key is already present,
in which case the map is left as it is (the stored value is not overwritten). -/
def insert (m : StdMap κ ν) (k : κ) (v : ν) : StdMap κ ν :=
  match find m k with
  | some _ => m
  | none => m ++ [(k, v)]

/-- Model of `std::map::size`. -/
def size (m : StdMap κ ν) : Nat := m.length

end StdMap

/-- Model of `std::sort(ids.begin(), ids.end())` on a vector of `std::size_t`:
the ascending rearrangement of the vector. -/
def stdSort (ids : List Nat) : List Nat := ids.insertionSort (fun a b => a ≤ b)

/-- The modulus of `unsigned int` arithmetic. -/
def uintModulus : Nat := 2 ^ 32

/-! ## Host mesh operations used by the factory -/

/-- The operations of the host mesh that the factory calls.
`M` is the mesh, `P` the type of points, `V` the type of vertex handles and
`HE` the type of the exceptions the host may throw. -/
structure HostOps (M P V HE : Type) where
  /-- The call `mMesh_->getHostGrid().insert( makePoint( pos ) )`. -/
  insert : M → P → M × V
  /-- The read `vh->info().id`. -/
  infoId : M → V → Nat
  /-- The write `vh->info().isInterface = true`. -/
  setIsInterface : M → V → M
  /-- The call `mMesh_->addInterfaceSegment( ids )`: the mesh it leaves behind and
  the exception it has thrown, if any. -/
  addInterfaceSegment : M → List Nat → M × Option HE

/-! ## The grid factory -/

/-- Exceptions that leave the member functions of the factory. -/
inductive FactoryError (HE : Type) where
  /-- The exception `std::out_of_range` of `vertexIdMap_.at( v )`. -/
  | outOfRange
  /-- The exception `GridError` ("A boundary segment was inserted twice."). -/
  | gridError
  /-- The exception `NotImplemented`. -/
  | notImplemented
  /-- The exception `InvalidStateException`. -/
  | invalidStateException
  /-- An exception thrown by the host mesh. -/
  | host (e : HE)
  deriving DecidableEq, Repr

/-- Result of a call of a member function: it returned a value or it threw, and
`state` is the object state after the call. -/
inductive Outcome (ε σ α : Type) where
  | returned (state : σ) (value : α)
  | thrown (state : σ) (error : ε)
  deriving DecidableEq, Repr

namespace Outcome

variable {ε σ α : Type}

/-- The object state after the call. -/
def state : Outcome ε σ α → σ
  | returned s _ => s
  | thrown s _ => s

/-- The exception that left the call, if any. -/
def error : Outcome ε σ α → Option ε
  | returned _ _ => none
  | thrown _ e => some e

/-- Whether the call returned normally. -/
def isReturned : Outcome ε σ α → Bool
  | returned _ _ => true
  | thrown _ _ => false

end Outcome

/-- The private members of `GridFactory< MMeshInterfaceGrid<MMeshImp, dim> >`. -/
structure GridFactory (M : Type) where
  mMesh_ : M
  boundarySegments_ : StdMap (List Nat) Nat
  countBoundarySegments : Nat
  vertexIdMap_ : StdMap Nat Nat
  insertionIndexMap_ : StdMap (List Nat) Nat
  countElements : Nat
  countVertices : Nat
  deriving DecidableEq, Repr

/-- The argument `type` of `insertElement` (a `Dune::GeometryType`); the body
never reads it. -/
structure GeometryType where
  topologyId : Nat
  dim : Nat
  deriving DecidableEq, Repr

/-- What the factory reads from a codimension 0 entity of the interface grid. -/
structure Entity0 where
  /-- The values `entity.subEntity<dimension>(i).impl().hostEntity()->info().id`
  for `i = 0, ..., entity.subEntities(dimension) - 1`. -/
  vertexIds : List Nat
  /-- The value `mMesh_->interfaceGrid().globalIdSet().id( entity )`. -/
  globalId : Nat
  deriving DecidableEq, Repr

/-- What the factory reads from a vertex entity of the interface grid. -/
structure EntityV where
  /-- The identity `hostEntity()->info().id` of the host vertex. -/
  hostId : Nat
  /-- The value `mMesh_->interfaceGrid().globalIdSet().id( entity )`. -/
  globalId : Nat
  deriving DecidableEq, Repr

namespace GridFactory

variable {M P V HE : Type}

/-- The constructor `GridFactory( mMesh )`: all maps empty, all counters zero. -/
def create (mMesh : M) : GridFactory M :=
  { mMesh_ := mMesh
    boundarySegments_ := []
    countBoundarySegments := 0
    vertexIdMap_ := []
    insertionIndexMap_ := []
    countElements := 0
    countVertices := 0 }

/-- The loop `for ( const auto& v : vertices ) ids.push_back( vertexIdMap_.at( v ) )`:
`none` when some `at` throws `std::out_of_range`. -/
def lookupIds (vertexIdMap : StdMap Nat Nat) : List Nat → Option (List Nat)
  | [] => some []
  | v :: vs =>
    match StdMap.find vertexIdMap v with
    | none => none
    | some id =>
      match lookupIds vertexIdMap vs with
      | none => none
      | some ids => some (id :: ids)

/-- Model of `insertElement( type, vertices )`. -/
def insertElement (host : HostOps M P V HE) (f : GridFactory M) (_type : GeometryType)
    (vertices : List Nat) : Outcome (FactoryError HE) (GridFactory M) Unit :=
  match lookupIds f.vertexIdMap_ vertices with
  | none => Outcome.thrown f FactoryError.outOfRange
  | some ids =>
    let ids := stdSort ids
    match host.addInterfaceSegment f.mMesh_ ids with
    | (mesh, some e) => Outcome.thrown { f with mMesh_ := mesh } (FactoryError.host e)
    | (mesh, none) =>
      Outcome.returned
        { f with
          mMesh_ := mesh
          insertionIndexMap_ := StdMap.insert f.insertionIndexMap_ ids f.countElements
          countElements := (f.countElements + 1) % uintModulus } ()

/-- Model of `insertBoundarySegment( vertices )`. -/
def insertBoundarySegment (HE : Type) (f : GridFactory M) (vertices : List Nat) :
    Outcome (FactoryError HE) (GridFactory M) Unit :=
  match lookupIds f.vertexIdMap_ vertices with
  | none => Outcome.thrown f FactoryError.outOfRange
  | some ids =>
    let sorted_vertices := stdSort ids
    if (StdMap.find f.boundarySegments_ sorted_vertices).isSome then
      Outcome.thrown f FactoryError.gridError
    else
      Outcome.returned
        { f with
          boundarySegments_ :=
            StdMap.insert f.boundarySegments_ sorted_vertices f.countBoundarySegments
          countBoundarySegments := f.countBoundarySegments + 1 } ()

/-- Model of `insertBoundarySegment( vertices, boundarySegment )`. -/
def insertBoundarySegmentWith (HE : Type) {B : Type} (f : GridFactory M) (_vertices : List Nat)
    (_boundarySegment : B) : Outcome (FactoryError HE) (GridFactory M) Unit :=
  Outcome.thrown f FactoryError.notImplemented

/-- Model of `insertVertex( pos )`. -/
def insertVertex (host : HostOps M P V HE) (f : GridFactory M) (pos : P) :
    Outcome (FactoryError HE) (GridFactory M) Unit :=
  let r := host.insert f.mMesh_ pos
  let id := host.infoId r.1 r.2
  let mesh := host.setIsInterface r.1 r.2
  Outcome.returned
    { f with
      mMesh_ := mesh
      vertexIdMap_ := StdMap.insert f.vertexIdMap_ f.countVertices id
      countVertices := f.countVertices + 1 } ()

/-- Model of `insertionIndex( entity )` for an entity of codimension 0. -/
def insertionIndex (f : GridFactory M) (entity : Entity0) : Nat :=
  let ids := stdSort entity.vertexIds
  match StdMap.find f.insertionIndexMap_ ids with
  | some index => index
  | none => entity.globalId % uintModulus

/-- Model of `insertionIndex( entity )` for an entity of codimension `dimension`
(a vertex): `none` when the `assert` fails. -/
def insertionIndexVertex (_f : GridFactory M) (entity : EntityV) : Option Nat :=
  let index := entity.globalId
  if index < uintModulus - 1 then some index else none

/-- Model of `createGrid()`; `G` is the type of grid pointers. -/
def createGrid (HE G : Type) (f : GridFactory M) : Outcome (FactoryError HE) (GridFactory M) G :=
  Outcome.thrown f FactoryError.invalidStateException

/-! ### Sequences of calls -/

/-- A run of `insertElement` calls, one per entry of `calls`, all of which
return: `none` as soon as one of them throws. -/
def insertElements (host : HostOps M P V HE) :
    GridFactory M → List (GeometryType × List Nat) → Option (GridFactory M)
  | f, [] => some f
  | f, c :: cs =>
    match insertElement host f c.1 c.2 with
    | Outcome.returned f' _ => insertElements host f' cs
    | Outcome.thrown _ _ => none

/-- The key under which `insertElement` and `insertBoundarySegment` file a vertex
list: the sorted tuple of the vertex identities, `none` when an index is unknown. -/
def sortedTuple (f : GridFactory M) (vertices : List Nat) : Option (List Nat) :=
  match lookupIds f.vertexIdMap_ vertices with
  | none => none
  | some ids => some (stdSort ids)

/-- A call made on the factory, or a change made to the host mesh behind its back. -/
inductive Call (M P : Type) where
  | insertVertex (pos : P)
  | insertElement (type : GeometryType) (vertices : List Nat)
  | insertBoundarySegment (vertices : List Nat)
  /-- An adapt pass of the host mesh (refinement, coarsening, renumbering of the
  index sets); the host mesh is replaced by `change mesh`. -/
  | adapt (change : M → M)

/-- The factory state after a call, whether the call returned or threw (the
caller catches the exception and carries on). -/
def applyCall (host : HostOps M P V HE) (f : GridFactory M) : Call M P → GridFactory M
  | Call.insertVertex pos => (insertVertex host f pos).state
  | Call.insertElement type vertices => (insertElement host f type vertices).state
  | Call.insertBoundarySegment vertices =>
    (insertBoundarySegment HE f vertices).state
  | Call.adapt change => { f with mMesh_ := change f.mMesh_ }

/-- The factory state after a sequence of calls. -/
def applyCalls (host : HostOps M P V HE) (f : GridFactory M) (calls : List (Call M P)) :
    GridFactory M :=
  calls.foldl (applyCall host) f

/-- A run of `insertBoundarySegment` calls, one per entry of `calls`, each of
which may return or throw: the final state and the vertex lists of the calls that
returned, in the order of the calls. -/
def insertBoundarySegmentCalls (HE : Type) :
    GridFactory M → List (List Nat) → GridFactory M × List (List Nat)
  | f, [] => (f, [])
  | f, vertices :: rest =>
    match insertBoundarySegment HE f vertices with
    | Outcome.returned f' _ =>
      ((insertBoundarySegmentCalls HE f' rest).1,
        vertices :: (insertBoundarySegmentCalls HE f' rest).2)
    | Outcome.thrown f' _ => insertBoundarySegmentCalls HE f' rest

/-- A run of `insertElement` calls, one per entry of `calls`, each of which may
return or throw: the final state and the number of calls that returned. -/
def insertElementCalls (host : HostOps M P V HE) :
    GridFactory M → List (GeometryType × List Nat) → GridFactory M × Nat
  | f, [] => (f, 0)
  | f, c :: cs =>
    match insertElement host f c.1 c.2 with
    | Outcome.returned f' _ =>
      ((insertElementCalls host f' cs).1, (insertElementCalls host f' cs).2 + 1)
    | Outcome.thrown f' _ => insertElementCalls host f' cs

end GridFactory

/-! ## A host mesh -/

/-- Modelled from the spec: a vertex of the host triangulation (`Vertex` of the
data model): a point, a stable integer identity and the flag `isInterface`.
The triangulation is not among the sources at hand. -/
structure HostVertex where
  point : Int × Int
  id : Nat
  isInterface : Bool
  deriving DecidableEq, Repr

/-- Modelled from the spec: the host triangulation, which is not among the sources
at hand: its vertices, the next identity to hand out (identities are assigned once
and never reused), the sorted identity tuples of its facets, and the facets
flagged as interface. -/
structure HostMesh where
  vertices : List HostVertex
  nextId : Nat
  facets : List (List Nat)
  interfaceFacets : List (List Nat)
  deriving DecidableEq, Repr

/-- Modelled from the spec: the error `InvalidTopology` of `addInterfaceSegment`,
which is not among the sources at hand. -/
inductive HostError where
  | invalidTopology
  deriving DecidableEq, Repr

namespace HostMesh

/-- Modelled from the spec: `insert(point) -> VertexHandle` of the triangulation
adapter, which is not among the sources at hand: inserts a point and returns a
handle with a stable identity; a point that is already a vertex keeps the identity
it has.  The handle is the identity. -/
def insert (m : HostMesh) (p : Int × Int) : HostMesh × Nat :=
  match m.vertices.find? (fun v => decide (v.point = p)) with
  | some v => (m, v.id)
  | none =>
    ({ m with
       vertices := m.vertices ++ [{ point := p, id := m.nextId, isInterface := false }]
       nextId := m.nextId + 1 }, m.nextId)

/-- Modelled from the spec: the identity behind a vertex handle (the handle of
`insert`, which is not among the sources at hand, is the identity itself). -/
def infoId (_m : HostMesh) (vh : Nat) : Nat := vh

/-- Modelled from the spec: setting the flag `isInterface` of the vertex behind a
handle of the triangulation, which is not among the sources at hand. -/
def setIsInterface (m : HostMesh) (vh : Nat) : HostMesh :=
  { m with
    vertices := m.vertices.map
      (fun v => if v.id = vh then { v with isInterface := true } else v) }

/-- Modelled from the spec: `addInterfaceSegment(vertexIds)`, which is not among
the sources at hand: marks the facet spanned by the given sorted vertex identities
as interface; fails with `InvalidTopology` if the vertex set does not correspond to
an existing facet, and then leaves the mesh unchanged. -/
def addInterfaceSegment (m : HostMesh) (ids : List Nat) : HostMesh × Option HostError :=
  if ids ∈ m.facets then
    (if ids ∈ m.interfaceFacets then m
     else { m with interfaceFacets := m.interfaceFacets ++ [ids] }, none)
  else (m, some HostError.invalidTopology)

end HostMesh

/-- Modelled from the spec: the four host operations of `HostMesh`, standing in
for the triangulation, which is not among the sources at hand. -/
def hostMeshOps : HostOps HostMesh (Int × Int) Nat HostError :=
  { insert := HostMesh.insert
    infoId := HostMesh.infoId
    setIsInterface := HostMesh.setIsInterface
    addInterfaceSegment := HostMesh.addInterfaceSegment }

/-- A host mesh of two triangles on the unit square: vertices `0..3` at
`(0,0), (1,0), (1,1), (0,1)`, the diagonal `0-2`, five edges as facets. -/
def squareMesh : HostMesh :=
  { vertices :=
      [ { point := (0, 0), id := 0, isInterface := false },
        { point := (1, 0), id := 1, isInterface := false },
        { point := (1, 1), id := 2, isInterface := false },
        { point := (0, 1), id := 3, isInterface := false } ]
    nextId := 4
    facets := [[0, 1], [1, 2], [0, 2], [2, 3], [0, 3]]
    interfaceFacets := [] }

/-- The geometry type of an edge. -/
def line : GeometryType := { topologyId := 0, dim := 1 }

/-- The factory on `squareMesh` after `insertVertex` for the points `(0,0)`,
`(1,1)`, `(0,1)`: the vertex indices `0, 1, 2` stand for the identities `0, 2, 3`. -/
def squareFactory : GridFactory HostMesh :=
  GridFactory.applyCalls hostMeshOps (GridFactory.create squareMesh)
    [GridFactory.Call.insertVertex (0, 0), GridFactory.Call.insertVertex (1, 1),
     GridFactory.Call.insertVertex (0, 1)]

/-! ## Interface geometry (`geometry.hh`) -/

/-- Model of `FieldVector<ctype, n>`.  The coordinates are exact rationals, so
that the statements about the geometry are statements of exact arithmetic. -/
abbrev FieldVector (n : Nat) := Fin n → ℚ

/-- Model of the base class `AffineGeometry<ctype, mydim, coorddim>` as far as the
interface geometry uses it: it is built from the corners and `corner(i)` gives
the `i`-th of them back. -/
structure AffineGeometry (coorddim : Nat) where
  corners : List (FieldVector coorddim)

/-- Model of `AffineGeometry::corner(i)`. -/
def AffineGeometry.corner {coorddim : Nat} (g : AffineGeometry coorddim) (i : Nat) :
    FieldVector coorddim :=
  g.corners.getD i 0

/-- A cell handle of the host triangulation with `nv` vertices, as far as the
geometry reads it: `vertexPoint i` is `makeFieldVector( cell->vertex(i)->point() )`. -/
structure Cell (nv coorddim : Nat) where
  vertexPoint : Fin nv → FieldVector coorddim

/-- The point `makeFieldVector( cell->vertex(j)->point() )` for a local index `j`
given as a number; the origin stands for an index the cell does not have. -/
def Cell.pointAt {nv coorddim : Nat} (cell : Cell nv coorddim) (j : Nat) :
    FieldVector coorddim :=
  if h : j < nv then cell.vertexPoint ⟨j, h⟩ else 0

/-- Model of `MMeshInterfaceGridGeometry<mydim, coorddim, GridImp>`: the base
class and the member `circumcenter_`. -/
structure MMeshInterfaceGridGeometry (coorddim : Nat) where
  base : AffineGeometry coorddim
  circumcenter_ : FieldVector coorddim

namespace MMeshInterfaceGridGeometry

variable {coorddim : Nat}

/-- Model of `corner(i)`, inherited from the base class. -/
def corner (g : MMeshInterfaceGridGeometry coorddim) (i : Nat) : FieldVector coorddim :=
  g.base.corner i

/-- Model of `circumcenter()`. -/
def circumcenter (g : MMeshInterfaceGridGeometry coorddim) : FieldVector coorddim :=
  g.circumcenter_

/-- The constructor body shared by the edge geometries:
`circumcenter_ = corner(0); circumcenter_ += corner(1); circumcenter_ *= 0.5;`. -/
def withEdgeCircumcenter (base : AffineGeometry coorddim) :
    MMeshInterfaceGridGeometry coorddim :=
  let c0 : FieldVector coorddim := base.corner 0
  let c1 : FieldVector coorddim := fun k => c0 k + base.corner 1 k
  let c2 : FieldVector coorddim := fun k => c1 k * 0.5
  { base := base, circumcenter_ := c2 }

/-- Model of the 2D constructor from a host entity of codimension 0, the pair
`hostEntity = (cell, index)` of a face handle and the index of the edge in it. -/
def ofHostEntity0 (hostEntity : Cell 3 2 × Fin 3) : MMeshInterfaceGridGeometry 2 :=
  withEdgeCircumcenter
    { corners :=
        [ hostEntity.1.vertexPoint ⟨(hostEntity.2.val + 1) % 3, Nat.mod_lt _ (by decide)⟩,
          hostEntity.1.vertexPoint ⟨(hostEntity.2.val + 2) % 3, Nat.mod_lt _ (by decide)⟩ ] }

/-- Model of the 2D constructor from `std::array<Vertex, 2>`; `vertices i` is
`makeFieldVector( vertices[i].point() )`. -/
def ofVertices (vertices : Fin 2 → FieldVector 2) : MMeshInterfaceGridGeometry 2 :=
  withEdgeCircumcenter { corners := [vertices 0, vertices 1] }

/-- Model of the 2D constructor from a host entity of codimension 1 (a vertex
handle); `point` is `makeFieldVector( hostEntity->point() )`. -/
def ofHostEntity1 (point : FieldVector 2) : MMeshInterfaceGridGeometry 2 :=
  let base : AffineGeometry 2 := { corners := [point] }
  { base := base, circumcenter_ := base.corner 0 }

/-! ### The 3D geometry -/

/-- Model of `getVertices<0>( hostEntity )` for the pair `hostEntity = (cell,
facetIdx)` of a cell handle and the index of the facet in it: the loop
`for ( int i = 0; i < 3; ++i ) vertices[i] = ... cell->vertex( (facetIdx + i + 1) % 4 )`. -/
def getVertices0 (hostEntity : Cell 4 3 × Fin 4) : List (FieldVector 3) :=
  (List.finRange 3).map
    (fun i => hostEntity.1.vertexPoint
      ⟨(hostEntity.2.val + i.val + 1) % 4, Nat.mod_lt _ (by decide)⟩)

/-- Model of `getVertices<1>( hostEntity )` for the triple `hostEntity = (cell,
vertexIdx1, vertexIdx2)` of a cell handle and the indices of two of its vertices. -/
def getVertices1 (hostEntity : Cell 4 3 × Fin 4 × Fin 4) : List (FieldVector 3) :=
  [hostEntity.1.vertexPoint hostEntity.2.1, hostEntity.1.vertexPoint hostEntity.2.2]

/-- Model of the 3D constructor from a host entity of codimension 0.  The function
`CGAL::circumcenter` of three points belongs to the CGAL library and is the
argument `cgalCircumcenter`. -/
def ofHostEntity0In3D
    (cgalCircumcenter : FieldVector 3 → FieldVector 3 → FieldVector 3 → FieldVector 3)
    (hostEntity : Cell 4 3 × Fin 4) : MMeshInterfaceGridGeometry 3 :=
  { base := { corners := getVertices0 hostEntity }
    circumcenter_ :=
      cgalCircumcenter
        (hostEntity.1.vertexPoint ⟨(hostEntity.2.val + 1) % 4, Nat.mod_lt _ (by decide)⟩)
        (hostEntity.1.vertexPoint ⟨(hostEntity.2.val + 2) % 4, Nat.mod_lt _ (by decide)⟩)
        (hostEntity.1.vertexPoint ⟨(hostEntity.2.val + 3) % 4, Nat.mod_lt _ (by decide)⟩) }

/-- Model of the 3D constructor from `std::array<Vertex, 3>`; `vertices i` is
`makeFieldVector( vertices[i].point() )`. -/
def ofVerticesIn3D
    (cgalCircumcenter : FieldVector 3 → FieldVector 3 → FieldVector 3 → FieldVector 3)
    (vertices : Fin 3 → FieldVector 3) : MMeshInterfaceGridGeometry 3 :=
  { base := { corners := [vertices 0, vertices 1, vertices 2] }
    circumcenter_ := cgalCircumcenter (vertices 0) (vertices 1) (vertices 2) }

/-- Model of the 3D constructor from a host entity of codimension 1 (an edge). -/
def ofHostEntity1In3D (hostEntity : Cell 4 3 × Fin 4 × Fin 4) : MMeshInterfaceGridGeometry 3 :=
  withEdgeCircumcenter { corners := getVertices1 hostEntity }

/-- Model of the 3D constructor from a host entity of codimension 2 (a vertex
handle); `point` is `makeFieldVector( hostEntity->point() )`. -/
def ofHostEntity2In3D (point : FieldVector 3) : MMeshInterfaceGridGeometry 3 :=
  let base : AffineGeometry 3 := { corners := [point] }
  { base := base, circumcenter_ := base.corner 0 }

/-- The squared Euclidean distance of two points. -/
def squaredDistance (a b : FieldVector coorddim) : ℚ :=
  Finset.univ.sum (fun k => (a k - b k) ^ 2)

/-- The local indices `(i + 1) mod (d + 1), ..., (i + d) mod (d + 1)` of the
vertices of a cell with `d + 1` vertices that span its facet `i`. -/
def facetVertexIndices (d i : Nat) : List Nat :=
  (List.range d).map (fun j => (i + j + 1) % (d + 1))

end MMeshInterfaceGridGeometry

/-! ## The carousel driver (`test-carousel.cc`) -/

namespace Carousel

/-- The calls made in one pass of the time loop of `main`.  The vector `shifts`
is named by the number of times it has been reassigned in the current time step. -/
inductive Event where
  /-- The loops that fill `shifts` from `movement` (lines 81-83 and 158-160). -/
  | assignShifts (version : Nat)
  /-- The call `grid.markElements()`. -/
  | markElements
  /-- The loop `mark by distance` with its calls of `grid.mark`. -/
  | markByDistance
  /-- The call `grid.preAdapt()` with its result. -/
  | preAdapt (result : Bool)
  /-- The call `grid.adapt()`. -/
  | adapt
  /-- The loop over the new elements that sums the intersection volumes. -/
  | transferCheck
  /-- The call `grid.postAdapt()`. -/
  | postAdapt
  /-- The call `grid.ensureInterfaceMovement( shifts )` and whether it returned. -/
  | ensureInterfaceMovement (shifts : Nat) (returned : Bool)
  /-- The call `grid.moveInterface( shifts )`. -/
  | moveInterface (shifts : Nat)
  /-- The call `distance.update()`. -/
  | distanceUpdate
  /-- The two calls of `write`. -/
  | write
  deriving DecidableEq, Repr

/-- What the grid answers at one evaluation of the condition of the `while` loop:
`preAdapt()` is false, or it is true and the body runs, at the end of which
`ensureInterfaceMovement` returns or throws. -/
inductive Probe where
  | stop
  | iterate (ensureReturns : Bool)
  deriving DecidableEq, Repr

/-- How the modelled stretch of code was left. -/
inductive Exit where
  /-- Control reached the end of the stretch. -/
  | completed
  /-- An exception was thrown; `main` returns `EXIT_FAILURE`. -/
  | failure
  /-- The statement `return 0` of the 3D case at `t == 9`. -/
  | returned
  /-- The recorded answers end while the `while` loop is still running. -/
  | running
  deriving DecidableEq, Repr

/-- The result of running a stretch of the driver: the calls made, how it was left
and the current name of `shifts`. -/
structure Run where
  trace : List Event
  exit : Exit
  shifts : Nat
  deriving DecidableEq, Repr

/-- Model of the loop `while( grid.preAdapt() ) { ... }` (lines 130-163), started
with `shifts` at version `s`. -/
def adaptLoop : Nat → List Probe → Run
  | s, [] => { trace := [], exit := Exit.running, shifts := s }
  | s, Probe.stop :: _ => { trace := [Event.preAdapt false], exit := Exit.completed, shifts := s }
  | s, Probe.iterate ok :: rest =>
    let body : List Event :=
      [Event.preAdapt true, Event.adapt, Event.transferCheck, Event.postAdapt,
       Event.assignShifts (s + 1), Event.ensureInterfaceMovement (s + 1) ok]
    if ok then
      let r := adaptLoop (s + 1) rest
      { trace := body ++ r.trace, exit := r.exit, shifts := r.shifts }
    else { trace := body, exit := Exit.failure, shifts := s + 1 }

/-- Model of the body of the time loop (lines 76-173) for grid dimension `dim`
and time step `t`. -/
def timeStep (dim t : Nat) (probes : List Probe) : Run :=
  if dim = 3 ∧ t = 9 then { trace := [], exit := Exit.returned, shifts := 0 }
  else
    let start : List Event := [Event.assignShifts 0, Event.markElements, Event.markByDistance]
    let r := adaptLoop 0 probes
    match r.exit with
    | Exit.completed =>
      { trace := start ++ r.trace ++
          [Event.moveInterface r.shifts, Event.distanceUpdate, Event.write]
        exit := Exit.completed
        shifts := r.shifts }
    | e => { trace := start ++ r.trace, exit := e, shifts := r.shifts }

/-- The state of the monitor that reads a trace: the version of `shifts` for which
`ensureInterfaceMovement` has returned with neither the mesh nor `shifts` changed
since, and whether every `moveInterface` so far was called in such a state. -/
structure Monitor where
  certified : Option Nat
  ok : Bool
  deriving DecidableEq, Repr

/-- One step of the monitor.  The calls `adapt` and `moveInterface` change the
mesh and an assignment changes `shifts`; all three withdraw the certificate. -/
def Monitor.step (m : Monitor) : Event → Monitor
  | Event.ensureInterfaceMovement s true => { m with certified := some s }
  | Event.ensureInterfaceMovement _ false => { m with certified := none }
  | Event.adapt => { m with certified := none }
  | Event.assignShifts _ => { m with certified := none }
  | Event.moveInterface s =>
    { certified := none, ok := m.ok && decide (m.certified = some s) }
  | _ => m

/-- The property of a trace that every call `moveInterface( shifts )` is preceded
by a call `ensureInterfaceMovement( shifts )` that returned, for the same version
of `shifts`, with no change of the mesh or of `shifts` in between. -/
def movesCertified (trace : List Event) : Bool :=
  (trace.foldl Monitor.step { certified := none, ok := true }).ok

end Carousel

end Dune

/-! # Properties -/

namespace Dune

/-! ## Facts about the map and the sort -/

namespace StdMap

variable {κ ν : Type} [DecidableEq κ]

theorem find_append (m m' : StdMap κ ν) (k : κ) :
    find (m ++ m') k = (find m k).orElse (fun _ => find m' k) := by
  induction m with
  | nil => simp [find]
  | cons e rest ih =>
    obtain ⟨k', v⟩ := e
    by_cases h : k' = k
    · simp [find, h]
    · simp only [List.cons_append, find, h, if_false]
      exact ih

theorem find_insert_of_find_eq_some {m : StdMap κ ν} {k : κ} {v : ν} (h : find m k = some v)
    (k' : κ) (v' : ν) : find (insert m k' v') k = some v := by
  unfold insert
  cases hk : find m k' with
  | some w => simpa using h
  | none => simp [find_append, h]

theorem find_insert_self {m : StdMap κ ν} {k : κ} (h : find m k = none) (v : ν) :
    find (insert m k v) k = some v := by
  unfold insert
  rw [h]
  simp [find_append, h, find]

theorem find_insert_of_ne (m : StdMap κ ν) {k k' : κ} (h : k' ≠ k) (v' : ν) :
    find (insert m k' v') k = find m k := by
  unfold insert
  cases hk : find m k' with
  | some w => rfl
  | none =>
    simp only [find_append, find, h, if_false]
    cases find m k <;> rfl

theorem insert_of_find_eq_some {m : StdMap κ ν} {k : κ} {v : ν} (h : find m k = some v)
    (v' : ν) : insert m k v' = m := by
  unfold insert
  rw [h]

theorem insert_of_find_eq_none {m : StdMap κ ν} {k : κ} (h : find m k = none)
    (v : ν) : insert m k v = m ++ [(k, v)] := by
  unfold insert
  rw [h]

end StdMap

theorem stdSort_eq_of_perm {l l' : List Nat} (h : l.Perm l') : stdSort l = stdSort l' := by
  unfold stdSort
  apply List.eq_of_perm_of_sorted (r := fun a b => a ≤ b)
  · exact ((List.perm_insertionSort _ l).trans h).trans (List.perm_insertionSort _ l').symm
  · exact List.sorted_insertionSort _ l
  · exact List.sorted_insertionSort _ l'

namespace GridFactory

variable {M P V HE : Type}

theorem lookupIds_eq_some_iff (m : StdMap Nat Nat) (vs ids : List Nat) :
    lookupIds m vs = some ids ↔ List.Forall₂ (fun v id => StdMap.find m v = some id) vs ids := by
  induction vs generalizing ids with
  | nil =>
    cases ids <;> simp [lookupIds]
  | cons v vs ih =>
    cases hv : StdMap.find m v with
    | none =>
      simp only [lookupIds, hv]
      constructor
      · intro h; cases h
      · intro h
        cases h with
        | cons h1 _ => rw [hv] at h1; cases h1
    | some id =>
      cases hrest : lookupIds m vs with
      | none =>
        simp only [lookupIds, hv, hrest]
        constructor
        · intro h; cases h
        · intro h
          cases h with
          | cons h1 h2 =>
            rw [← ih] at h2
            rw [hrest] at h2; cases h2
      | some rest =>
        simp only [lookupIds, hv, hrest, Option.some.injEq]
        constructor
        · intro h
          subst h
          exact List.Forall₂.cons hv ((ih rest).mp hrest)
        · intro h
          cases h with
          | cons h1 h2 =>
            rw [hv] at h1
            have h3 := (ih _).mpr h2
            rw [hrest] at h3
            cases h1; cases h3; rfl

theorem lookupIds_eq_none_iff (m : StdMap Nat Nat) (vs : List Nat) :
    lookupIds m vs = none ↔ ∃ v ∈ vs, StdMap.find m v = none := by
  induction vs with
  | nil => simp [lookupIds]
  | cons v vs ih =>
    cases hv : StdMap.find m v with
    | none => simp [lookupIds, hv]
    | some id =>
      cases hrest : lookupIds m vs with
      | none =>
        simp only [lookupIds, hv, hrest, true_iff]
        obtain ⟨w, hw, hw'⟩ := ih.mp hrest
        exact ⟨w, List.mem_cons_of_mem _ hw, hw'⟩
      | some rest =>
        simp only [lookupIds, hv, hrest]
        constructor
        · intro h; cases h
        · rintro ⟨w, hw, hw'⟩
          rcases List.mem_cons.mp hw with rfl | hw
          · rw [hv] at hw'; cases hw'
          · have := ih.mpr ⟨w, hw, hw'⟩
            rw [hrest] at this; cases this

theorem sortedTuple_eq_some_iff (f : GridFactory M) (vertices key : List Nat) :
    sortedTuple f vertices = some key ↔
      ∃ ids, lookupIds f.vertexIdMap_ vertices = some ids ∧ stdSort ids = key := by
  unfold sortedTuple
  cases lookupIds f.vertexIdMap_ vertices <;> simp

theorem sortedTuple_isSome_iff (f : GridFactory M) (vertices : List Nat) :
    (sortedTuple f vertices).isSome ↔ ∀ v ∈ vertices, (StdMap.find f.vertexIdMap_ v).isSome := by
  unfold sortedTuple
  cases h : lookupIds f.vertexIdMap_ vertices with
  | none =>
    obtain ⟨v, hv, hv'⟩ := (lookupIds_eq_none_iff _ _).mp h
    simp only [Option.isSome_none, Bool.false_eq_true, false_iff, not_forall]
    exact ⟨v, hv, by simp [hv']⟩
  | some ids =>
    simp only [Option.isSome_some, true_iff]
    intro v hv
    cases hf : StdMap.find f.vertexIdMap_ v with
    | some id => rfl
    | none =>
      have := (lookupIds_eq_none_iff _ _).mpr ⟨v, hv, hf⟩
      rw [h] at this; cases this

/-- The sorted tuple of a vertex list does not depend on the order of the list. -/
theorem sortedTuple_perm (f : GridFactory M) {vertices vertices' : List Nat}
    (hperm : vertices.Perm vertices') : sortedTuple f vertices = sortedTuple f vertices' := by
  induction hperm with
  | nil => rfl
  | @cons v l l' _ ih =>
    unfold sortedTuple at ih ⊢
    cases hv : StdMap.find f.vertexIdMap_ v with
    | none => simp [lookupIds, hv]
    | some id =>
      cases h1 : lookupIds f.vertexIdMap_ l with
      | none =>
        cases h2 : lookupIds f.vertexIdMap_ l' with
        | none => simp [lookupIds, hv, h1, h2]
        | some ids' => rw [h1, h2] at ih; cases ih
      | some ids =>
        cases h2 : lookupIds f.vertexIdMap_ l' with
        | none => rw [h1, h2] at ih; cases ih
        | some ids' =>
          rw [h1, h2] at ih
          simp only [lookupIds, hv, h1, h2, Option.some.injEq] at ih ⊢
          unfold stdSort at ih ⊢
          simp only [List.insertionSort, ih]
  | swap v w l =>
    unfold sortedTuple
    cases hv : StdMap.find f.vertexIdMap_ v with
    | none =>
      cases hw : StdMap.find f.vertexIdMap_ w <;> simp [lookupIds, hv, hw]
    | some a =>
      cases hw : StdMap.find f.vertexIdMap_ w with
      | none => simp [lookupIds, hv, hw]
      | some b =>
        cases h1 : lookupIds f.vertexIdMap_ l with
        | none => simp [lookupIds, hv, hw, h1]
        | some ids =>
          simp only [lookupIds, hv, hw, h1, Option.some.injEq]
          exact stdSort_eq_of_perm (List.Perm.swap a b ids)
  | trans _ _ ih1 ih2 => exact ih1.trans ih2

/-! ### What the calls leave alone -/

theorem insertElement_state_vertexIdMap (host : HostOps M P V HE) (f : GridFactory M)
    (type : GeometryType) (vertices : List Nat) :
    (insertElement host f type vertices).state.vertexIdMap_ = f.vertexIdMap_ := by
  unfold insertElement
  split
  · rfl
  · dsimp only
    split <;> rfl

theorem insertElement_state_boundarySegments (host : HostOps M P V HE) (f : GridFactory M)
    (type : GeometryType) (vertices : List Nat) :
    (insertElement host f type vertices).state.boundarySegments_ = f.boundarySegments_ := by
  unfold insertElement
  split
  · rfl
  · dsimp only
    split <;> rfl

theorem insertElement_state_insertionIndexMap (host : HostOps M P V HE) (f : GridFactory M)
    (type : GeometryType) (vertices : List Nat) :
    (insertElement host f type vertices).state.insertionIndexMap_ = f.insertionIndexMap_ ∨
    ∃ key, (insertElement host f type vertices).state.insertionIndexMap_
      = StdMap.insert f.insertionIndexMap_ key f.countElements := by
  unfold insertElement
  split
  · exact Or.inl rfl
  · dsimp only
    split
    · exact Or.inl rfl
    · exact Or.inr ⟨_, rfl⟩

theorem insertBoundarySegment_state_vertexIdMap (HE : Type) (f : GridFactory M)
    (vertices : List Nat) :
    (insertBoundarySegment HE f vertices).state.vertexIdMap_ = f.vertexIdMap_ := by
  unfold insertBoundarySegment
  split
  · rfl
  · dsimp only
    split <;> rfl

theorem insertBoundarySegment_state_insertionIndexMap (HE : Type) (f : GridFactory M)
    (vertices : List Nat) :
    (insertBoundarySegment HE f vertices).state.insertionIndexMap_ = f.insertionIndexMap_ := by
  unfold insertBoundarySegment
  split
  · rfl
  · dsimp only
    split <;> rfl

theorem insertBoundarySegment_state_boundarySegments (HE : Type) (f : GridFactory M)
    (vertices : List Nat) :
    (insertBoundarySegment HE f vertices).state.boundarySegments_ = f.boundarySegments_ ∨
    ∃ key, (insertBoundarySegment HE f vertices).state.boundarySegments_
      = StdMap.insert f.boundarySegments_ key f.countBoundarySegments := by
  unfold insertBoundarySegment
  split
  · exact Or.inl rfl
  · dsimp only
    split
    · exact Or.inl rfl
    · exact Or.inr ⟨_, rfl⟩

/-- An entry of the vertex map survives every call. -/
theorem applyCall_find_vertexIdMap (host : HostOps M P V HE) (f : GridFactory M)
    (c : Call M P) {v id : Nat} (h : StdMap.find f.vertexIdMap_ v = some id) :
    StdMap.find (applyCall host f c).vertexIdMap_ v = some id := by
  cases c with
  | insertVertex pos => exact StdMap.find_insert_of_find_eq_some h _ _
  | insertElement type vertices =>
    simp only [applyCall, insertElement_state_vertexIdMap]; exact h
  | insertBoundarySegment vertices =>
    simp only [applyCall, insertBoundarySegment_state_vertexIdMap]; exact h
  | adapt change => exact h

/-- An entry of the boundary segment registry survives every call. -/
theorem applyCall_find_boundarySegments (host : HostOps M P V HE) (f : GridFactory M)
    (c : Call M P) {key : List Nat} {index : Nat}
    (h : StdMap.find f.boundarySegments_ key = some index) :
    StdMap.find (applyCall host f c).boundarySegments_ key = some index := by
  cases c with
  | insertVertex pos => exact h
  | insertElement type vertices =>
    simp only [applyCall, insertElement_state_boundarySegments]; exact h
  | insertBoundarySegment vertices =>
    simp only [applyCall]
    rcases insertBoundarySegment_state_boundarySegments HE f vertices with h' | ⟨k, h'⟩
    · rw [h']; exact h
    · rw [h']; exact StdMap.find_insert_of_find_eq_some h _ _
  | adapt change => exact h

/-- An entry of the insertion index map survives every call. -/
theorem applyCall_find_insertionIndexMap (host : HostOps M P V HE) (f : GridFactory M)
    (c : Call M P) {key : List Nat} {index : Nat}
    (h : StdMap.find f.insertionIndexMap_ key = some index) :
    StdMap.find (applyCall host f c).insertionIndexMap_ key = some index := by
  cases c with
  | insertVertex pos => exact h
  | insertElement type vertices =>
    simp only [applyCall]
    rcases insertElement_state_insertionIndexMap host f type vertices with h' | ⟨k, h'⟩
    · rw [h']; exact h
    · rw [h']; exact StdMap.find_insert_of_find_eq_some h _ _
  | insertBoundarySegment vertices =>
    simp only [applyCall, insertBoundarySegment_state_insertionIndexMap]; exact h
  | adapt change => exact h

theorem applyCalls_find_vertexIdMap (host : HostOps M P V HE) (calls : List (Call M P))
    (f : GridFactory M) {v id : Nat} (h : StdMap.find f.vertexIdMap_ v = some id) :
    StdMap.find (applyCalls host f calls).vertexIdMap_ v = some id := by
  induction calls generalizing f with
  | nil => exact h
  | cons c cs ih => exact ih _ (applyCall_find_vertexIdMap host f c h)

theorem applyCalls_find_boundarySegments (host : HostOps M P V HE) (calls : List (Call M P))
    (f : GridFactory M) {key : List Nat} {index : Nat}
    (h : StdMap.find f.boundarySegments_ key = some index) :
    StdMap.find (applyCalls host f calls).boundarySegments_ key = some index := by
  induction calls generalizing f with
  | nil => exact h
  | cons c cs ih => exact ih _ (applyCall_find_boundarySegments host f c h)

theorem applyCalls_find_insertionIndexMap (host : HostOps M P V HE) (calls : List (Call M P))
    (f : GridFactory M) {key : List Nat} {index : Nat}
    (h : StdMap.find f.insertionIndexMap_ key = some index) :
    StdMap.find (applyCalls host f calls).insertionIndexMap_ key = some index := by
  induction calls generalizing f with
  | nil => exact h
  | cons c cs ih => exact ih _ (applyCall_find_insertionIndexMap host f c h)

/-- The sorted tuple of a vertex list whose indices are known survives every call. -/
theorem applyCalls_sortedTuple (host : HostOps M P V HE) (calls : List (Call M P))
    (f : GridFactory M) {vertices key : List Nat} (h : sortedTuple f vertices = some key) :
    sortedTuple (applyCalls host f calls) vertices = some key := by
  obtain ⟨ids, hids, hkey⟩ := (sortedTuple_eq_some_iff _ _ _).mp h
  refine (sortedTuple_eq_some_iff _ _ _).mpr ⟨ids, ?_, hkey⟩
  rw [lookupIds_eq_some_iff] at hids ⊢
  exact hids.imp (fun _ _ h' => applyCalls_find_vertexIdMap host calls f h')

/-! ## `insertBoundarySegment` -/

theorem insertBoundarySegment_of_registered (HE : Type) (f : GridFactory M)
    {vertices key : List Nat} (hkey : sortedTuple f vertices = some key)
    (hreg : (StdMap.find f.boundarySegments_ key).isSome) :
    insertBoundarySegment HE f vertices = Outcome.thrown f FactoryError.gridError := by
  obtain ⟨ids, hids, rfl⟩ := (sortedTuple_eq_some_iff f vertices key).mp hkey
  unfold insertBoundarySegment
  simp only [hids, hreg, if_true]

theorem insertBoundarySegment_returned_registers (HE : Type) (f f' : GridFactory M)
    (vertices : List Nat) (h : insertBoundarySegment HE f vertices = Outcome.returned f' ()) :
    ∃ key, sortedTuple f' vertices = some key ∧
      StdMap.find f'.boundarySegments_ key = some f.countBoundarySegments := by
  unfold insertBoundarySegment at h
  split at h
  · cases h
  · next ids hids =>
    dsimp only at h
    split at h
    · cases h
    · next hnot =>
      cases h
      refine ⟨stdSort ids, ?_, ?_⟩
      · exact (sortedTuple_eq_some_iff _ _ _).mpr ⟨ids, hids, rfl⟩
      · apply StdMap.find_insert_self
        cases hf : StdMap.find f.boundarySegments_ (stdSort ids) with
        | none => rfl
        | some x => rw [hf] at hnot; simp at hnot

/-- Once `insertBoundarySegment` has returned for a vertex list, a later call with
the same list or with any rearrangement of it throws `GridError` and leaves the
factory as it is, whatever calls were made in between. -/
theorem insertBoundarySegment_again_throws (host : HostOps M P V HE) (f₀ f₁ : GridFactory M)
    (earlier : List Nat) (hfirst : insertBoundarySegment HE f₀ earlier = Outcome.returned f₁ ())
    (calls : List (Call M P)) (vertices : List Nat) (hperm : vertices.Perm earlier) :
    insertBoundarySegment HE (applyCalls host f₁ calls) vertices
      = Outcome.thrown (applyCalls host f₁ calls) FactoryError.gridError := by
  obtain ⟨key, hkey, hfind⟩ := insertBoundarySegment_returned_registers HE f₀ f₁ earlier hfirst
  refine insertBoundarySegment_of_registered HE _ (?_ : sortedTuple _ vertices = some key) ?_
  · rw [sortedTuple_perm _ hperm]
    exact applyCalls_sortedTuple host calls f₁ hkey
  · rw [applyCalls_find_boundarySegments host calls f₁ hfind]
    rfl

/-- C1. In a factory state in which every given vertex index is known, so that the
vertex list has a sorted tuple of vertex identities `key` (`sortedTuple_isSome_iff`),
and in which `key` is already in the boundary segment registry,
`insertBoundarySegment` throws `GridError`, and the state it leaves behind is the
state before the call: the registry, its size and the boundary segment counter are
unchanged.  The tuple is registered by an earlier call with the same list or with
any rearrangement of it (`insertBoundarySegment_again_throws`). -/
theorem insertBoundarySegment_registered_throws (HE : Type) (f : GridFactory M)
    (vertices key : List Nat)
    (hkey : sortedTuple f vertices = some key)
    (hreg : (StdMap.find f.boundarySegments_ key).isSome) :
    insertBoundarySegment HE f vertices = Outcome.thrown f FactoryError.gridError ∧
    (insertBoundarySegment HE f vertices).state.boundarySegments_ = f.boundarySegments_ ∧
    StdMap.size (insertBoundarySegment HE f vertices).state.boundarySegments_
      = StdMap.size f.boundarySegments_ ∧
    (insertBoundarySegment HE f vertices).state.countBoundarySegments
      = f.countBoundarySegments := by
  rw [insertBoundarySegment_of_registered HE f hkey hreg]
  exact ⟨rfl, rfl, rfl, rfl⟩

/-- Witness for C1: on the square, the boundary segment `[0, 1]` is inserted and
then inserted again with its vertices swapped. -/
theorem insertBoundarySegment_registered_throws_witness :
    insertBoundarySegment HostError
        (insertBoundarySegment HostError squareFactory [0, 1]).state [1, 0]
      = Outcome.thrown (insertBoundarySegment HostError squareFactory [0, 1]).state
          FactoryError.gridError ∧
    (insertBoundarySegment HostError
        (insertBoundarySegment HostError squareFactory [0, 1]).state [1, 0]).state.boundarySegments_
      = [([0, 2], 0)] :=
  have h := insertBoundarySegment_registered_throws HostError
    (insertBoundarySegment HostError squareFactory [0, 1]).state [1, 0] [0, 2]
    (by decide) (by decide)
  ⟨h.1, h.2.1.trans (by decide)⟩

/-- C9. A call of `insertBoundarySegment` that returns changes nothing but the
boundary segment registry and its counter: the vertex map, the insertion index
map of the elements, the vertex and element counters and the host mesh are those
of the state before the call. -/
theorem insertBoundarySegment_returned_frame (HE : Type) (f f' : GridFactory M)
    (vertices : List Nat)
    (h : insertBoundarySegment HE f vertices = Outcome.returned f' ()) :
    f'.vertexIdMap_ = f.vertexIdMap_ ∧
    f'.insertionIndexMap_ = f.insertionIndexMap_ ∧
    f'.countVertices = f.countVertices ∧
    f'.countElements = f.countElements ∧
    f'.mMesh_ = f.mMesh_ := by
  unfold insertBoundarySegment at h
  split at h
  · cases h
  · dsimp only at h
    split at h
    · cases h
    · cases h
      exact ⟨rfl, rfl, rfl, rfl, rfl⟩

/-- Witness for C9: the boundary segment `[0, 1]` is inserted on the square. -/
theorem insertBoundarySegment_returned_frame_witness :
    insertBoundarySegment HostError squareFactory [0, 1]
      = Outcome.returned
          { squareFactory with boundarySegments_ := [([0, 2], 0)], countBoundarySegments := 1 } () ∧
    ({ squareFactory with boundarySegments_ := [([0, 2], 0)], countBoundarySegments := 1 }
        : GridFactory HostMesh).vertexIdMap_ = squareFactory.vertexIdMap_ :=
  ⟨by decide,
   (insertBoundarySegment_returned_frame HostError squareFactory
      { squareFactory with boundarySegments_ := [([0, 2], 0)], countBoundarySegments := 1 }
      [0, 1] (by decide)).1⟩

/-! ## `insertElement` -/

theorem insertElement_of_unknown (host : HostOps M P V HE) (f : GridFactory M)
    (type : GeometryType) (vertices : List Nat) (v : Nat) (hv : v ∈ vertices)
    (hunknown : StdMap.find f.vertexIdMap_ v = none) :
    insertElement host f type vertices = Outcome.thrown f FactoryError.outOfRange := by
  unfold insertElement
  rw [(lookupIds_eq_none_iff _ _).mpr ⟨v, hv, hunknown⟩]

theorem insertElement_of_rejected (host : HostOps M P V HE) (f : GridFactory M)
    (type : GeometryType) (vertices key : List Nat) (e : HE)
    (hkey : sortedTuple f vertices = some key)
    (hreject : (host.addInterfaceSegment f.mMesh_ key).2 = some e) :
    insertElement host f type vertices
      = Outcome.thrown { f with mMesh_ := (host.addInterfaceSegment f.mMesh_ key).1 }
          (FactoryError.host e) := by
  obtain ⟨ids, hids, rfl⟩ := (sortedTuple_eq_some_iff f vertices key).mp hkey
  unfold insertElement
  rw [hids]
  dsimp only
  generalize host.addInterfaceSegment f.mMesh_ (stdSort ids) = r at hreject ⊢
  obtain ⟨mesh, err⟩ := r
  cases hreject
  rfl

/-- C6. When `insertElement` throws, the exception reaches the caller and the
insertion index map and the element counter of the factory are those of the state
before the call.  The exception is `std::out_of_range`, thrown since one of the
given vertex indices was never inserted through `insertVertex` (and then the whole
factory is as before), or it is the exception with which the host mesh rejected
the sorted tuple of vertex identities. -/
theorem insertElement_thrown_frame (host : HostOps M P V HE) (f : GridFactory M)
    (type : GeometryType) (vertices : List Nat)
    (hthrown : (insertElement host f type vertices).isReturned = false) :
    (insertElement host f type vertices).state.insertionIndexMap_ = f.insertionIndexMap_ ∧
    (insertElement host f type vertices).state.countElements = f.countElements ∧
    (((∃ v ∈ vertices, StdMap.find f.vertexIdMap_ v = none) ∧
        insertElement host f type vertices = Outcome.thrown f FactoryError.outOfRange) ∨
     (∃ key e, sortedTuple f vertices = some key ∧
        (host.addInterfaceSegment f.mMesh_ key).2 = some e ∧
        (insertElement host f type vertices).error = some (FactoryError.host e))) := by
  cases hl : lookupIds f.vertexIdMap_ vertices with
  | none =>
    obtain ⟨v, hv, hv'⟩ := (lookupIds_eq_none_iff _ _).mp hl
    rw [insertElement_of_unknown host f type vertices v hv hv']
    exact ⟨rfl, rfl, Or.inl ⟨⟨v, hv, hv'⟩, rfl⟩⟩
  | some ids =>
    have hkey : sortedTuple f vertices = some (stdSort ids) :=
      (sortedTuple_eq_some_iff _ _ _).mpr ⟨ids, hl, rfl⟩
    cases hr : (host.addInterfaceSegment f.mMesh_ (stdSort ids)).2 with
    | some e =>
      rw [insertElement_of_rejected host f type vertices _ e hkey hr]
      exact ⟨rfl, rfl, Or.inr ⟨_, e, hkey, hr, rfl⟩⟩
    | none =>
      exfalso
      unfold insertElement at hthrown
      rw [hl] at hthrown
      dsimp only at hthrown
      generalize host.addInterfaceSegment f.mMesh_ (stdSort ids) = r at hr hthrown
      obtain ⟨mesh, err⟩ := r
      cases hr
      simp [Outcome.isReturned] at hthrown

/-- Witness for C6: on the square, `insertElement` is called with the vertex
index `7`, which was never inserted. -/
theorem insertElement_thrown_frame_witness :
    (insertElement hostMeshOps squareFactory line [0, 7]).state.insertionIndexMap_ = [] ∧
    (insertElement hostMeshOps squareFactory line [0, 7]).state.countElements = 0 :=
  have h := insertElement_thrown_frame hostMeshOps squareFactory line [0, 7] (by decide)
  ⟨h.1.trans (by decide), h.2.1.trans (by decide)⟩

/-- On the square, `insertElement` is called with the single vertex index `0`; the
host mesh rejects the tuple `[0]`, which is not a facet, and the element
bookkeeping of the factory stays as it was. -/
theorem insertElement_rejected_example :
    insertElement hostMeshOps squareFactory line [0]
      = Outcome.thrown squareFactory (FactoryError.host HostError.invalidTopology) := by
  decide

/-! ## `insertionIndex` of an element -/

theorem insertionIndex_of_find (f : GridFactory M) (e : Entity0) {index : Nat}
    (h : StdMap.find f.insertionIndexMap_ (stdSort e.vertexIds) = some index) :
    insertionIndex f e = index := by
  unfold insertionIndex
  simp only [h]

/-- C3. Let the sorted tuple of the vertex identities of the element `e` be
recorded in the insertion index map with the index `index`.  After any sequence
of further calls (`insertVertex`, `insertElement`, `insertBoundarySegment`,
returning or throwing, and adapt passes that change the host mesh), and for any
view `e'` of the element whose vertex identities are those of `e` in any local
order and whose global id may be any other, `insertionIndex` is still `index`. -/
theorem insertionIndex_stable (host : HostOps M P V HE) (f : GridFactory M)
    (calls : List (Call M P)) (e e' : Entity0) (index : Nat)
    (hrecorded : StdMap.find f.insertionIndexMap_ (stdSort e.vertexIds) = some index)
    (hsame : e'.vertexIds.Perm e.vertexIds) :
    insertionIndex f e = index ∧ insertionIndex (applyCalls host f calls) e' = index := by
  refine ⟨insertionIndex_of_find f e hrecorded, ?_⟩
  apply insertionIndex_of_find
  rw [stdSort_eq_of_perm hsame]
  exact applyCalls_find_insertionIndexMap host calls f hrecorded

/-- Witness for C3: on the square the element `[0, 1]` (identities `0, 2`) is
inserted; afterwards a vertex, a second element and a boundary segment are
inserted, the first element is inserted again, and the host mesh is changed. -/
theorem insertionIndex_stable_witness :
    insertionIndex (insertElement hostMeshOps squareFactory line [0, 1]).state
        { vertexIds := [0, 2], globalId := 5 } = 0 ∧
    insertionIndex
        (applyCalls hostMeshOps (insertElement hostMeshOps squareFactory line [0, 1]).state
          [Call.insertVertex (1, 0), Call.insertElement line [1, 2],
           Call.insertBoundarySegment [0, 1], Call.insertElement line [1, 0],
           Call.adapt (fun m => { m with nextId := m.nextId + 3 })])
        { vertexIds := [2, 0], globalId := 9 } = 0 :=
  insertionIndex_stable hostMeshOps (insertElement hostMeshOps squareFactory line [0, 1]).state
    [Call.insertVertex (1, 0), Call.insertElement line [1, 2],
     Call.insertBoundarySegment [0, 1], Call.insertElement line [1, 0],
     Call.adapt (fun m => { m with nextId := m.nextId + 3 })]
    { vertexIds := [0, 2], globalId := 5 } { vertexIds := [2, 0], globalId := 9 } 0
    (by decide) (by decide)

/-! ## The index recorded by `insertElement` -/

theorem sortedTuple_congr {f g : GridFactory M} (h : g.vertexIdMap_ = f.vertexIdMap_)
    (vertices : List Nat) : sortedTuple g vertices = sortedTuple f vertices := by
  unfold sortedTuple
  rw [h]

theorem insertElement_returned (host : HostOps M P V HE) (f f' : GridFactory M)
    (type : GeometryType) (vertices : List Nat)
    (h : insertElement host f type vertices = Outcome.returned f' ()) :
    ∃ key, sortedTuple f vertices = some key ∧
      f'.insertionIndexMap_ = StdMap.insert f.insertionIndexMap_ key f.countElements ∧
      f'.countElements = (f.countElements + 1) % uintModulus ∧
      f'.vertexIdMap_ = f.vertexIdMap_ := by
  unfold insertElement at h
  split at h
  · cases h
  · next ids hids =>
    dsimp only at h
    split at h
    · cases h
    · cases h
      exact ⟨stdSort ids, (sortedTuple_eq_some_iff _ _ _).mpr ⟨ids, hids, rfl⟩, rfl, rfl, rfl⟩

theorem insertElements_cons (host : HostOps M P V HE) (f f' : GridFactory M)
    (c : GeometryType × List Nat) (cs : List (GeometryType × List Nat))
    (h : insertElements host f (c :: cs) = some f') :
    ∃ f₁, insertElement host f c.1 c.2 = Outcome.returned f₁ () ∧
      insertElements host f₁ cs = some f' := by
  simp only [insertElements] at h
  split at h
  · next f₁ u heq => exact ⟨f₁, heq, h⟩
  · cases h

/-- An entry of the insertion index map survives a run of `insertElement` calls. -/
theorem insertElements_find_preserved (host : HostOps M P V HE)
    (cs : List (GeometryType × List Nat)) (f f' : GridFactory M)
    (h : insertElements host f cs = some f') {key : List Nat} {index : Nat}
    (hfind : StdMap.find f.insertionIndexMap_ key = some index) :
    StdMap.find f'.insertionIndexMap_ key = some index := by
  induction cs generalizing f with
  | nil =>
    simp only [insertElements, Option.some.injEq] at h
    subst h; exact hfind
  | cons c cs ih =>
    obtain ⟨f₁, h1, h2⟩ := insertElements_cons host f f' c cs h
    obtain ⟨k, _, hmap, _, _⟩ := insertElement_returned host f f₁ c.1 c.2 h1
    apply ih f₁ h2
    rw [hmap]
    exact StdMap.find_insert_of_find_eq_some hfind _ _

/-- The index recorded for a tuple that a run of `insertElement` calls inserts for
the first time with its call number `k`: the counter at the start plus `k`, as long
as the counter does not pass `2^32`. -/
theorem insertElements_first_index (host : HostOps M P V HE)
    (cs : List (GeometryType × List Nat)) (f f' : GridFactory M)
    (h : insertElements host f cs = some f')
    (hbound : f.countElements + cs.length ≤ uintModulus)
    (key : List Nat) (hnew : StdMap.find f.insertionIndexMap_ key = none)
    (k : Nat) (c₀ : GeometryType × List Nat) (hk : cs[k]? = some c₀)
    (hkey : sortedTuple f c₀.2 = some key)
    (hfirst : ∀ j c, j < k → cs[j]? = some c → sortedTuple f c.2 ≠ some key) :
    StdMap.find f'.insertionIndexMap_ key = some (f.countElements + k) := by
  induction cs generalizing f k with
  | nil => simp at hk
  | cons c cs ih =>
    obtain ⟨f₁, h1, h2⟩ := insertElements_cons host f f' c cs h
    obtain ⟨key₁, hkey₁, hmap, hcount, hvmap⟩ := insertElement_returned host f f₁ c.1 c.2 h1
    cases k with
    | zero =>
      simp only [List.getElem?_cons_zero, Option.some.injEq] at hk
      subst hk
      rw [hkey] at hkey₁
      cases hkey₁
      apply insertElements_find_preserved host cs f₁ f' h2
      rw [hmap]
      exact StdMap.find_insert_self hnew _
    | succ k =>
      simp only [List.getElem?_cons_succ] at hk
      have hne : key₁ ≠ key := by
        intro heq
        subst heq
        exact hfirst 0 c (Nat.succ_pos k) (by simp) hkey₁
      have hlen : k < cs.length := by
        by_contra hge
        rw [List.getElem?_eq_none (Nat.le_of_not_lt hge)] at hk
        cases hk
      have hc : f₁.countElements = f.countElements + 1 := by
        rw [hcount]
        apply Nat.mod_eq_of_lt
        simp only [List.length_cons] at hbound
        omega
      have := ih f₁ h2 (by simp only [List.length_cons] at hbound; omega)
        (by rw [hmap, StdMap.find_insert_of_ne _ hne]; exact hnew) k hk
        (by rw [sortedTuple_congr hvmap]; exact hkey)
        (by
          intro j c' hj hc'
          rw [sortedTuple_congr hvmap]
          exact hfirst (j + 1) c' (Nat.succ_lt_succ hj) (by simpa using hc'))
      rw [this, hc]
      congr 1
      omega

theorem insertElements_values_increasing (host : HostOps M P V HE)
    (cs : List (GeometryType × List Nat)) (f f' : GridFactory M)
    (h : insertElements host f cs = some f')
    (hbound : f.countElements + cs.length ≤ uintModulus)
    (hsorted : (f.insertionIndexMap_.map Prod.snd).Pairwise (fun a b => a < b))
    (hlt : ∀ x ∈ f.insertionIndexMap_.map Prod.snd, x < f.countElements) :
    (f'.insertionIndexMap_.map Prod.snd).Pairwise (fun a b => a < b) := by
  induction cs generalizing f with
  | nil =>
    simp only [insertElements, Option.some.injEq] at h
    subst h; exact hsorted
  | cons c cs ih =>
    obtain ⟨f₁, h1, h2⟩ := insertElements_cons host f f' c cs h
    obtain ⟨key, _, hmap, hcount, _⟩ := insertElement_returned host f f₁ c.1 c.2 h1
    have hsorted₁ : (f₁.insertionIndexMap_.map Prod.snd).Pairwise (fun a b => a < b) := by
      rw [hmap]
      cases hf : StdMap.find f.insertionIndexMap_ key with
      | some x => rw [StdMap.insert_of_find_eq_some hf]; exact hsorted
      | none =>
        rw [StdMap.insert_of_find_eq_none hf, List.map_append, List.pairwise_append]
        refine ⟨hsorted, by simp, ?_⟩
        intro a ha b hb
        simp only [List.map_cons, List.map_nil, List.mem_singleton] at hb
        subst hb
        exact hlt a ha
    cases cs with
    | nil =>
      simp only [insertElements, Option.some.injEq] at h2
      subst h2; exact hsorted₁
    | cons c' cs' =>
      simp only [List.length_cons] at hbound
      have hc : f₁.countElements = f.countElements + 1 := by
        rw [hcount]
        apply Nat.mod_eq_of_lt
        omega
      apply ih f₁ h2
      · simp only [List.length_cons]; omega
      · exact hsorted₁
      · intro x hx
        rw [hmap] at hx
        rw [hc]
        cases hf : StdMap.find f.insertionIndexMap_ key with
        | some y =>
          rw [StdMap.insert_of_find_eq_some hf] at hx
          exact Nat.lt_succ_of_lt (hlt x hx)
        | none =>
          rw [StdMap.insert_of_find_eq_none hf, List.map_append, List.mem_append] at hx
          rcases hx with hx | hx
          · exact Nat.lt_succ_of_lt (hlt x hx)
          · simp only [List.map_cons, List.map_nil, List.mem_singleton] at hx
            subst hx
            exact Nat.lt_succ_self _

/-- C2, as amended. Take a factory whose insertion index map is empty and whose
element counter is zero, and a run of at most `2^32` calls of `insertElement`, all
of which return.  If call number `k` (counting from 0) is the first one whose
vertex list has the sorted tuple of vertex identities of the element `e`, then
`insertionIndex` of `e` is `k` after the run; and the recorded indices, read in
the order in which the tuples were first inserted, are strictly increasing. -/
theorem insertElements_insertionIndex (host : HostOps M P V HE) (f₀ f' : GridFactory M)
    (calls : List (GeometryType × List Nat))
    (hmap : f₀.insertionIndexMap_ = []) (hcount : f₀.countElements = 0)
    (hrun : insertElements host f₀ calls = some f')
    (hlen : calls.length ≤ 2 ^ 32)
    (k : Nat) (c : GeometryType × List Nat) (e : Entity0)
    (hk : calls[k]? = some c)
    (hkey : sortedTuple f₀ c.2 = some (stdSort e.vertexIds))
    (hfirst : ∀ j c', j < k → calls[j]? = some c' →
      sortedTuple f₀ c'.2 ≠ some (stdSort e.vertexIds)) :
    insertionIndex f' e = k ∧
    (f'.insertionIndexMap_.map Prod.snd).Pairwise (fun a b => a < b) := by
  constructor
  · apply insertionIndex_of_find
    have := insertElements_first_index host calls f₀ f' hrun
      (by rw [hcount, Nat.zero_add]; exact hlen) (stdSort e.vertexIds)
      (by rw [hmap]; rfl) k c hk hkey hfirst
    rw [this, hcount, Nat.zero_add]
  · apply insertElements_values_increasing host calls f₀ f' hrun
    · rw [hcount, Nat.zero_add]; exact hlen
    · rw [hmap]; exact List.Pairwise.nil
    · rw [hmap]; intro x hx; cases hx

/-- Witness for C2: on the square the elements `[0, 1]`, `[1, 0]`, `[1, 2]` are
inserted; the tuple `[2, 3]` of the third call is first inserted by call number 2. -/
theorem insertElements_insertionIndex_witness :
    insertionIndex
      { squareFactory with
        mMesh_ := { squareFactory.mMesh_ with interfaceFacets := [[0, 2], [2, 3]] }
        insertionIndexMap_ := [([0, 2], 0), ([2, 3], 2)]
        countElements := 3 }
      { vertexIds := [3, 2], globalId := 11 } = 2 :=
  (insertElements_insertionIndex hostMeshOps squareFactory
    { squareFactory with
      mMesh_ := { squareFactory.mMesh_ with interfaceFacets := [[0, 2], [2, 3]] }
      insertionIndexMap_ := [([0, 2], 0), ([2, 3], 2)]
      countElements := 3 }
    [(line, [0, 1]), (line, [1, 0]), (line, [1, 2])]
    (by decide) (by decide) (by decide) (by decide)
    2 (line, [1, 2]) { vertexIds := [3, 2], globalId := 11 }
    (by decide) (by decide)
    (by
      intro j c' hj hc'
      have hj' : j = 0 ∨ j = 1 := by omega
      rcases hj' with rfl | rfl
      · cases hc'; decide
      · cases hc'; decide)).1

/-- A call of `insertElement` that only advances the element counter, repeated `n`
times, advances the counter by `n` modulo `2^32`. -/
theorem insertElements_replicate (host : HostOps M P V HE) (f : GridFactory M)
    (c : GeometryType × List Nat)
    (hstep : ∀ cnt, insertElement host { f with countElements := cnt } c.1 c.2
      = Outcome.returned { f with countElements := (cnt + 1) % uintModulus } ())
    (rest : List (GeometryType × List Nat)) (n cnt : Nat) (hcnt : cnt < uintModulus) :
    insertElements host { f with countElements := cnt } (List.replicate n c ++ rest)
      = insertElements host { f with countElements := (cnt + n) % uintModulus } rest := by
  induction n generalizing cnt with
  | zero =>
    rw [List.replicate_zero, List.nil_append, Nat.add_zero, Nat.mod_eq_of_lt hcnt]
  | succ n ih =>
    rw [List.replicate_succ, List.cons_append]
    simp only [insertElements, hstep]
    rw [ih _ (Nat.mod_lt _ (by decide))]
    have hmod : ((cnt + 1) % uintModulus + n) % uintModulus = (cnt + (n + 1)) % uintModulus := by
      rw [Nat.add_mod, Nat.mod_mod, ← Nat.add_mod]
      congr 1
      omega
    rw [hmod]

/-- The run on the square in which the element `[0, 1]` is inserted `n + 1` times
and then the element `[1, 2]` once. -/
theorem insertElements_square_repeated (n : Nat) :
    insertElements hostMeshOps squareFactory
        (List.replicate (n + 1) (line, [0, 1]) ++ [(line, [1, 2])])
      = some
          { squareFactory with
            mMesh_ := { squareFactory.mMesh_ with interfaceFacets := [[0, 2], [2, 3]] }
            insertionIndexMap_ := [([0, 2], 0), ([2, 3], (1 + n) % uintModulus)]
            countElements := ((1 + n) % uintModulus + 1) % uintModulus } := by
  rw [List.replicate_succ, List.cons_append]
  have h1 : insertElement hostMeshOps squareFactory (line, [0, 1]).1 (line, [0, 1]).2
      = Outcome.returned
          { ({ squareFactory with
                mMesh_ := { squareFactory.mMesh_ with interfaceFacets := [[0, 2]] }
                insertionIndexMap_ := [([0, 2], 0)] } : GridFactory HostMesh) with
            countElements := 1 } () := by decide
  have hstep : ∀ cnt, insertElement hostMeshOps
      { ({ squareFactory with
            mMesh_ := { squareFactory.mMesh_ with interfaceFacets := [[0, 2]] }
            insertionIndexMap_ := [([0, 2], 0)] } : GridFactory HostMesh) with
        countElements := cnt } (line, [0, 1]).1 (line, [0, 1]).2
      = Outcome.returned
          { ({ squareFactory with
                mMesh_ := { squareFactory.mMesh_ with interfaceFacets := [[0, 2]] }
                insertionIndexMap_ := [([0, 2], 0)] } : GridFactory HostMesh) with
            countElements := (cnt + 1) % uintModulus } () := fun cnt => rfl
  rw [insertElements, h1]
  dsimp only
  rw [insertElements_replicate hostMeshOps _ (line, [0, 1]) hstep _ n 1 (by decide)]
  rfl

/-- Counterexample to C2 as stated. On the square the element `[0, 1]` is inserted
`2^32` times and then the element `[1, 2]`; all calls return.  The tuple `[2, 3]`
of the last call is first inserted by call number `2^32`, but the index recorded
for it is `0`, the index of the tuple `[0, 2]` of call number 0. -/
theorem insertElements_insertionIndex_wraps :
    ∃ f', insertElements hostMeshOps squareFactory
        (List.replicate (2 ^ 32) (line, [0, 1]) ++ [(line, [1, 2])]) = some f' ∧
      (List.replicate (2 ^ 32) (line, [0, 1]) ++ [(line, [1, 2])])[2 ^ 32]?
        = some (line, [1, 2]) ∧
      sortedTuple squareFactory [1, 2] = some (stdSort [2, 3]) ∧
      (∀ j c', j < 2 ^ 32 →
        (List.replicate (2 ^ 32) (line, [0, 1]) ++ [(line, [1, 2])])[j]? = some c' →
        sortedTuple squareFactory c'.2 ≠ some (stdSort [2, 3])) ∧
      insertionIndex f' { vertexIds := [2, 3], globalId := 11 } = 0 ∧
      insertionIndex f' { vertexIds := [0, 2], globalId := 10 } = 0 := by
  have hn : 2 ^ 32 - 1 + 1 = 2 ^ 32 := by decide
  have hrun := insertElements_square_repeated (2 ^ 32 - 1)
  rw [hn] at hrun
  refine ⟨_, hrun, ?_, by decide, ?_, ?_, ?_⟩
  · rw [List.getElem?_append_right (by rw [List.length_replicate]),
      List.length_replicate, Nat.sub_self]
    rfl
  · intro j c' hj hc'
    rw [List.getElem?_append_left (by rw [List.length_replicate]; exact hj),
      List.getElem?_replicate_of_lt hj] at hc'
    cases hc'
    decide
  · have hz : (1 + (2 ^ 32 - 1)) % uintModulus = 0 := by decide
    unfold insertionIndex
    rw [hz]
    rfl
  · rfl

/-! ## `insertionIndex` of a vertex -/

/-- The insertion index of a vertex is read off the global id of the entity; the
vertex map and the vertex counter of the factory are never consulted. -/
theorem insertionIndexVertex_eq (f : GridFactory M) (entity : EntityV) :
    insertionIndexVertex f entity
      = if entity.globalId < 2 ^ 32 - 1 then some entity.globalId else none := rfl

/-- C4, the code at the failing input. The factory on the square has assigned the
running counter value `1` to the vertex with host identity `2` (second call of
`insertVertex`), but `insertionIndex` of that vertex, whose global id is its host
identity, is `2`. -/
theorem insertionIndexVertex_square :
    squareFactory.countVertices = 3 ∧
    StdMap.find squareFactory.vertexIdMap_ 1 = some 2 ∧
    insertionIndexVertex squareFactory { hostId := 2, globalId := 2 } = some 2 := by
  decide

/-! ## `createGrid` -/

/-- For every factory state `createGrid` throws `InvalidStateException`; it
returns no grid and leaves the factory as it is. -/
theorem createGrid_throws (HE G : Type) (f : GridFactory M) :
    createGrid HE G f = Outcome.thrown f FactoryError.invalidStateException ∧
    (createGrid HE G f).isReturned = false ∧
    (createGrid HE G f).state = f :=
  ⟨rfl, rfl, rfl⟩

/-- C10, the code at the failing input. On the factory of the square `createGrid`
throws `InvalidStateException` and leaves the factory as it is; it does not return
a pointer to a grid, which is what its doc comment announces. -/
theorem createGrid_square_throws :
    createGrid HostError Nat squareFactory
      = Outcome.thrown squareFactory FactoryError.invalidStateException ∧
    (createGrid HostError Nat squareFactory).isReturned = false ∧
    ¬ ∃ (f' : GridFactory HostMesh) (grid : Nat),
      createGrid HostError Nat squareFactory = Outcome.returned f' grid := by
  refine ⟨rfl, rfl, ?_⟩
  rintro ⟨f', grid, h⟩
  cases h

/-! ## The boundary segment registry after a run of calls -/

theorem find_eq_none_iff_not_mem_keys {κ ν : Type} [DecidableEq κ] (m : StdMap κ ν) (k : κ) :
    StdMap.find m k = none ↔ k ∉ m.map Prod.fst := by
  induction m with
  | nil => simp [StdMap.find]
  | cons e rest ih =>
    obtain ⟨k', v⟩ := e
    by_cases h : k' = k
    · simp [StdMap.find, h]
    · simp only [StdMap.find, h, if_false, List.map_cons, List.mem_cons, not_or]
      rw [ih]
      exact ⟨fun h' => ⟨fun h'' => h h''.symm, h'⟩, fun h' => h'.2⟩

theorem insertBoundarySegment_returned (HE : Type) (f f' : GridFactory M)
    (vertices : List Nat) (h : insertBoundarySegment HE f vertices = Outcome.returned f' ()) :
    ∃ key, sortedTuple f vertices = some key ∧
      StdMap.find f.boundarySegments_ key = none ∧
      f'.boundarySegments_ = f.boundarySegments_ ++ [(key, f.countBoundarySegments)] ∧
      f'.countBoundarySegments = f.countBoundarySegments + 1 ∧
      f'.vertexIdMap_ = f.vertexIdMap_ := by
  unfold insertBoundarySegment at h
  split at h
  · cases h
  · next ids hids =>
    dsimp only at h
    split at h
    · cases h
    · next hnot =>
      cases h
      have hnone : StdMap.find f.boundarySegments_ (stdSort ids) = none := by
        cases hf : StdMap.find f.boundarySegments_ (stdSort ids) with
        | none => rfl
        | some x => rw [hf] at hnot; simp at hnot
      exact ⟨stdSort ids, (sortedTuple_eq_some_iff _ _ _).mpr ⟨ids, hids, rfl⟩, hnone,
        StdMap.insert_of_find_eq_none hnone _, rfl, rfl⟩

theorem insertBoundarySegment_thrown (HE : Type) (f f' : GridFactory M)
    (vertices : List Nat) (e : FactoryError HE)
    (h : insertBoundarySegment HE f vertices = Outcome.thrown f' e) : f' = f := by
  unfold insertBoundarySegment at h
  split at h
  · cases h; rfl
  · dsimp only at h
    split at h
    · cases h; rfl
    · cases h

/-- The registry after a run of `insertBoundarySegment` calls on a factory whose
registry holds the values `0, ..., size - 1` in this order under pairwise distinct
keys and whose counter is the size. -/
theorem insertBoundarySegmentCalls_invariant (HE : Type) (calls : List (List Nat))
    (f : GridFactory M)
    (hvalues : f.boundarySegments_.map Prod.snd = List.range f.boundarySegments_.length)
    (hkeys : (f.boundarySegments_.map Prod.fst).Nodup)
    (hcount : f.countBoundarySegments = f.boundarySegments_.length) :
    (insertBoundarySegmentCalls HE f calls).1.boundarySegments_.map Prod.snd
      = List.range (insertBoundarySegmentCalls HE f calls).1.boundarySegments_.length ∧
    ((insertBoundarySegmentCalls HE f calls).1.boundarySegments_.map Prod.fst).Nodup ∧
    (insertBoundarySegmentCalls HE f calls).1.countBoundarySegments
      = (insertBoundarySegmentCalls HE f calls).1.boundarySegments_.length ∧
    (insertBoundarySegmentCalls HE f calls).1.boundarySegments_.length
      = f.boundarySegments_.length + (insertBoundarySegmentCalls HE f calls).2.length ∧
    (∀ key index, StdMap.find f.boundarySegments_ key = some index →
      StdMap.find (insertBoundarySegmentCalls HE f calls).1.boundarySegments_ key
        = some index) ∧
    (∀ k vertices, (insertBoundarySegmentCalls HE f calls).2[k]? = some vertices →
      ∃ key, sortedTuple f vertices = some key ∧
        StdMap.find (insertBoundarySegmentCalls HE f calls).1.boundarySegments_ key
          = some (f.boundarySegments_.length + k)) := by
  induction calls generalizing f with
  | nil =>
    refine ⟨hvalues, hkeys, hcount, rfl, fun _ _ h => h, ?_⟩
    intro k vertices hk
    simp [insertBoundarySegmentCalls] at hk
  | cons vs rest ih =>
    cases hcall : insertBoundarySegment HE f vs with
    | thrown f' e =>
      have hf' := insertBoundarySegment_thrown HE f f' vs e hcall
      subst hf'
      have heq : insertBoundarySegmentCalls HE f' (vs :: rest)
          = insertBoundarySegmentCalls HE f' rest := by
        simp only [insertBoundarySegmentCalls, hcall]
      rw [heq]
      exact ih f' hvalues hkeys hcount
    | returned f' u =>
      cases u
      obtain ⟨key, hkey, hnone, hbs, hcnt, hvmap⟩ :=
        insertBoundarySegment_returned HE f f' vs hcall
      have heq : insertBoundarySegmentCalls HE f (vs :: rest)
          = ((insertBoundarySegmentCalls HE f' rest).1,
              vs :: (insertBoundarySegmentCalls HE f' rest).2) := by
        simp only [insertBoundarySegmentCalls, hcall]
      have hlen : f'.boundarySegments_.length = f.boundarySegments_.length + 1 := by
        rw [hbs, List.length_append]; rfl
      have hvalues' : f'.boundarySegments_.map Prod.snd
          = List.range f'.boundarySegments_.length := by
        rw [hlen, List.range_succ, hbs, List.map_append, hvalues, hcount]
        rfl
      have hkeys' : (f'.boundarySegments_.map Prod.fst).Nodup := by
        rw [hbs, List.map_append, List.nodup_append]
        refine ⟨hkeys, by simp, ?_⟩
        intro a ha hb
        simp only [List.map_cons, List.map_nil, List.mem_singleton] at hb
        subst hb
        exact (find_eq_none_iff_not_mem_keys _ _).mp hnone ha
      have hcount' : f'.countBoundarySegments = f'.boundarySegments_.length := by
        rw [hcnt, hlen, hcount]
      obtain ⟨h1, h2, h3, h4, h5, h6⟩ := ih f' hvalues' hkeys' hcount'
      rw [heq]
      refine ⟨h1, h2, h3, ?_, ?_, ?_⟩
      · rw [h4, hlen]
        simp only [List.length_cons]
        omega
      · intro key' index hfind
        apply h5
        rw [hbs, StdMap.find_append, hfind]
        rfl
      · intro k vertices hk
        cases k with
        | zero =>
          simp only [List.getElem?_cons_zero, Option.some.injEq] at hk
          subst hk
          refine ⟨key, hkey, ?_⟩
          apply h5
          rw [hbs, StdMap.find_append, hnone, Nat.add_zero, hcount]
          simp [StdMap.find]
        | succ k =>
          simp only [List.getElem?_cons_succ] at hk
          obtain ⟨key', hkey', hfind'⟩ := h6 k vertices hk
          refine ⟨key', ?_, ?_⟩
          · rw [← sortedTuple_congr hvmap]; exact hkey'
          · rw [hfind', hlen]
            congr 1
            omega

/-- C13. After any run of `insertBoundarySegment` calls, returning or throwing, on
a factory that starts with an empty registry and the counter zero: the keys of
the registry are pairwise distinct and its values are `0, ..., size - 1`, each
once; the counter equals the size of the registry, which is the number of calls
that returned; and the vertex list of the `k`-th returning call (counting from 0)
has its sorted tuple mapped to `k`. -/
theorem insertBoundarySegmentCalls_registry (HE : Type) (f₀ : GridFactory M)
    (calls : List (List Nat))
    (hempty : f₀.boundarySegments_ = []) (hzero : f₀.countBoundarySegments = 0) :
    ((insertBoundarySegmentCalls HE f₀ calls).1.boundarySegments_.map Prod.fst).Nodup ∧
    (insertBoundarySegmentCalls HE f₀ calls).1.boundarySegments_.map Prod.snd
      = List.range (StdMap.size (insertBoundarySegmentCalls HE f₀ calls).1.boundarySegments_) ∧
    (insertBoundarySegmentCalls HE f₀ calls).1.countBoundarySegments
      = StdMap.size (insertBoundarySegmentCalls HE f₀ calls).1.boundarySegments_ ∧
    StdMap.size (insertBoundarySegmentCalls HE f₀ calls).1.boundarySegments_
      = (insertBoundarySegmentCalls HE f₀ calls).2.length ∧
    (∀ k vertices, (insertBoundarySegmentCalls HE f₀ calls).2[k]? = some vertices →
      ∃ key, sortedTuple f₀ vertices = some key ∧
        StdMap.find (insertBoundarySegmentCalls HE f₀ calls).1.boundarySegments_ key
          = some k) := by
  obtain ⟨h1, h2, h3, h4, _, h6⟩ := insertBoundarySegmentCalls_invariant HE calls f₀
    (by rw [hempty]; rfl) (by rw [hempty]; exact List.nodup_nil) (by rw [hempty, hzero]; rfl)
  refine ⟨h2, h1, h3, ?_, ?_⟩
  · unfold StdMap.size
    rw [h4, hempty]
    simp
  · intro k vertices hk
    obtain ⟨key, hkey, hfind⟩ := h6 k vertices hk
    refine ⟨key, hkey, ?_⟩
    rw [hfind, hempty]
    simp

/-- Witness for C13: on the square the boundary segments `[0, 1]`, `[1, 0]`
(a duplicate), `[0, 7]` (an unknown index) and `[1, 2]` are inserted; the first
and the last call return and are mapped to `0` and `1`. -/
theorem insertBoundarySegmentCalls_registry_witness :
    (insertBoundarySegmentCalls HostError squareFactory
        [[0, 1], [1, 0], [0, 7], [1, 2]]).1.boundarySegments_ = [([0, 2], 0), ([2, 3], 1)] ∧
    (insertBoundarySegmentCalls HostError squareFactory
        [[0, 1], [1, 0], [0, 7], [1, 2]]).2 = [[0, 1], [1, 2]] ∧
    (insertBoundarySegmentCalls HostError squareFactory
        [[0, 1], [1, 0], [0, 7], [1, 2]]).1.countBoundarySegments
      = StdMap.size (insertBoundarySegmentCalls HostError squareFactory
          [[0, 1], [1, 0], [0, 7], [1, 2]]).1.boundarySegments_ :=
  ⟨by decide, by decide,
   (insertBoundarySegmentCalls_registry HostError squareFactory
      [[0, 1], [1, 0], [0, 7], [1, 2]] (by decide) (by decide)).2.2.1⟩

/-! ## The element bookkeeping after a run of calls -/

theorem insertElement_thrown (host : HostOps M P V HE) (f f' : GridFactory M)
    (type : GeometryType) (vertices : List Nat) (e : FactoryError HE)
    (h : insertElement host f type vertices = Outcome.thrown f' e) :
    f'.insertionIndexMap_ = f.insertionIndexMap_ ∧ f'.countElements = f.countElements := by
  unfold insertElement at h
  split at h
  · cases h; exact ⟨rfl, rfl⟩
  · dsimp only at h
    split at h
    · cases h; exact ⟨rfl, rfl⟩
    · cases h

/-- A returning call of `insertElement` for a tuple that is already recorded keeps
the map as it is and advances the counter. -/
theorem insertElement_recorded (host : HostOps M P V HE) (f f' : GridFactory M)
    (type : GeometryType) (vertices key : List Nat) (index : Nat)
    (hkey : sortedTuple f vertices = some key)
    (hfind : StdMap.find f.insertionIndexMap_ key = some index)
    (h : insertElement host f type vertices = Outcome.returned f' ()) :
    f'.insertionIndexMap_ = f.insertionIndexMap_ ∧
    StdMap.find f'.insertionIndexMap_ key = some index ∧
    f'.countElements = (f.countElements + 1) % uintModulus := by
  obtain ⟨key', hkey', hmap, hcount, _⟩ := insertElement_returned host f f' type vertices h
  rw [hkey] at hkey'
  cases hkey'
  rw [StdMap.insert_of_find_eq_some hfind] at hmap
  exact ⟨hmap, by rw [hmap]; exact hfind, hcount⟩

theorem insertElementCalls_invariant (host : HostOps M P V HE)
    (calls : List (GeometryType × List Nat)) (f : GridFactory M)
    (hsorted : (f.insertionIndexMap_.map Prod.snd).Pairwise (fun a b => a < b))
    (hlt : ∀ x ∈ f.insertionIndexMap_.map Prod.snd, x < f.countElements)
    (hsize : f.insertionIndexMap_.length ≤ f.countElements)
    (hbound : f.countElements + (insertElementCalls host f calls).2 < uintModulus) :
    ((insertElementCalls host f calls).1.insertionIndexMap_.map Prod.snd).Pairwise
      (fun a b => a < b) ∧
    (∀ x ∈ (insertElementCalls host f calls).1.insertionIndexMap_.map Prod.snd,
      x < (insertElementCalls host f calls).1.countElements) ∧
    (insertElementCalls host f calls).1.insertionIndexMap_.length
      ≤ (insertElementCalls host f calls).1.countElements ∧
    (insertElementCalls host f calls).1.countElements
      = f.countElements + (insertElementCalls host f calls).2 := by
  induction calls generalizing f with
  | nil => exact ⟨hsorted, hlt, hsize, rfl⟩
  | cons c cs ih =>
    cases hcall : insertElement host f c.1 c.2 with
    | thrown f' e =>
      obtain ⟨hmap, hcount⟩ := insertElement_thrown host f f' c.1 c.2 e hcall
      have heq : insertElementCalls host f (c :: cs) = insertElementCalls host f' cs := by
        simp only [insertElementCalls, hcall]
      rw [heq] at hbound ⊢
      rw [← hcount] at hbound ⊢
      exact ih f' (by rw [hmap]; exact hsorted) (by rw [hmap, hcount]; exact hlt)
        (by rw [hmap, hcount]; exact hsize) hbound
    | returned f' u =>
      cases u
      obtain ⟨key, _, hmap, hcount, _⟩ := insertElement_returned host f f' c.1 c.2 hcall
      have heq : insertElementCalls host f (c :: cs)
          = ((insertElementCalls host f' cs).1, (insertElementCalls host f' cs).2 + 1) := by
        simp only [insertElementCalls, hcall]
      rw [heq] at hbound ⊢
      dsimp only at hbound ⊢
      have hc : f'.countElements = f.countElements + 1 := by
        rw [hcount]
        apply Nat.mod_eq_of_lt
        omega
      have hsorted' : (f'.insertionIndexMap_.map Prod.snd).Pairwise (fun a b => a < b) := by
        rw [hmap]
        cases hf : StdMap.find f.insertionIndexMap_ key with
        | some x => rw [StdMap.insert_of_find_eq_some hf]; exact hsorted
        | none =>
          rw [StdMap.insert_of_find_eq_none hf, List.map_append, List.pairwise_append]
          refine ⟨hsorted, by simp, ?_⟩
          intro a ha b hb
          simp only [List.map_cons, List.map_nil, List.mem_singleton] at hb
          subst hb
          exact hlt a ha
      have hlt' : ∀ x ∈ f'.insertionIndexMap_.map Prod.snd, x < f'.countElements := by
        intro x hx
        rw [hmap] at hx
        rw [hc]
        cases hf : StdMap.find f.insertionIndexMap_ key with
        | some y =>
          rw [StdMap.insert_of_find_eq_some hf] at hx
          exact Nat.lt_succ_of_lt (hlt x hx)
        | none =>
          rw [StdMap.insert_of_find_eq_none hf, List.map_append, List.mem_append] at hx
          rcases hx with hx | hx
          · exact Nat.lt_succ_of_lt (hlt x hx)
          · simp only [List.map_cons, List.map_nil, List.mem_singleton] at hx
            subst hx
            exact Nat.lt_succ_self _
      have hsize' : f'.insertionIndexMap_.length ≤ f'.countElements := by
        rw [hmap, hc]
        cases hf : StdMap.find f.insertionIndexMap_ key with
        | some y =>
          rw [StdMap.insert_of_find_eq_some hf]
          exact Nat.le_succ_of_le hsize
        | none =>
          rw [StdMap.insert_of_find_eq_none hf, List.length_append]
          exact Nat.succ_le_succ hsize
      obtain ⟨h1, h2, h3, h4⟩ := ih f' hsorted' hlt' hsize' (by rw [hc]; omega)
      refine ⟨h1, h2, h3, ?_⟩
      rw [h4, hc]
      omega

theorem insertElementCalls_of_insertElements (host : HostOps M P V HE)
    (calls : List (GeometryType × List Nat)) (f f' : GridFactory M)
    (h : insertElements host f calls = some f') :
    insertElementCalls host f calls = (f', calls.length) := by
  induction calls generalizing f with
  | nil =>
    simp only [insertElements, Option.some.injEq] at h
    subst h; rfl
  | cons c cs ih =>
    obtain ⟨f₁, h1, h2⟩ := insertElements_cons host f f' c cs h
    simp only [insertElementCalls, h1, ih f₁ h2, List.length_cons]

/-- C14, as amended. A returning call of `insertElement` whose sorted tuple of
vertex identities is already recorded does not touch the insertion index map (the
index of the first insertion is kept) and advances the element counter by one
modulo `2^32`.  After any run of `insertElement` calls, returning or throwing, of
which fewer than `2^32` return, on a factory that starts with an empty map and
the counter zero, the recorded indices are pairwise distinct, each is strictly
less than the element counter, the size of the map is at most the counter, and
the counter is the number of calls that returned. -/
theorem insertElementCalls_bookkeeping (host : HostOps M P V HE) (f₀ : GridFactory M)
    (calls : List (GeometryType × List Nat))
    (hempty : f₀.insertionIndexMap_ = []) (hzero : f₀.countElements = 0)
    (hbound : (insertElementCalls host f₀ calls).2 < 2 ^ 32) :
    (∀ (f f' : GridFactory M) (type : GeometryType) (vertices key : List Nat) (index : Nat),
      sortedTuple f vertices = some key →
      StdMap.find f.insertionIndexMap_ key = some index →
      insertElement host f type vertices = Outcome.returned f' () →
      f'.insertionIndexMap_ = f.insertionIndexMap_ ∧
      StdMap.find f'.insertionIndexMap_ key = some index ∧
      f'.countElements = (f.countElements + 1) % 2 ^ 32) ∧
    ((insertElementCalls host f₀ calls).1.insertionIndexMap_.map Prod.snd).Nodup ∧
    (∀ x ∈ (insertElementCalls host f₀ calls).1.insertionIndexMap_.map Prod.snd,
      x < (insertElementCalls host f₀ calls).1.countElements) ∧
    StdMap.size (insertElementCalls host f₀ calls).1.insertionIndexMap_
      ≤ (insertElementCalls host f₀ calls).1.countElements ∧
    (insertElementCalls host f₀ calls).1.countElements
      = (insertElementCalls host f₀ calls).2 := by
  refine ⟨fun f f' type vertices key index hkey hfind h =>
    insertElement_recorded host f f' type vertices key index hkey hfind h, ?_⟩
  obtain ⟨h1, h2, h3, h4⟩ := insertElementCalls_invariant host calls f₀
    (by rw [hempty]; exact List.Pairwise.nil) (by rw [hempty]; intro x hx; cases hx)
    (by rw [hempty]; exact Nat.zero_le _) (by rw [hzero, Nat.zero_add]; exact hbound)
  refine ⟨h1.imp (fun hab => Nat.ne_of_lt hab), h2, h3, ?_⟩
  rw [h4, hzero, Nat.zero_add]

/-- Witness for C14: on the square the elements `[0, 1]`, `[1, 0]` (recorded
already), `[0, 7]` (an unknown index) and `[1, 2]` are inserted. -/
theorem insertElementCalls_bookkeeping_witness :
    (insertElementCalls hostMeshOps squareFactory
        [(line, [0, 1]), (line, [1, 0]), (line, [0, 7]), (line, [1, 2])]).1.insertionIndexMap_
      = [([0, 2], 0), ([2, 3], 2)] ∧
    (insertElementCalls hostMeshOps squareFactory
        [(line, [0, 1]), (line, [1, 0]), (line, [0, 7]), (line, [1, 2])]).1.countElements = 3 :=
  ⟨by decide,
   (insertElementCalls_bookkeeping hostMeshOps squareFactory
      [(line, [0, 1]), (line, [1, 0]), (line, [0, 7]), (line, [1, 2])]
      (by decide) (by decide) (by decide)).2.2.2.2.trans (by decide)⟩

/-- Counterexample to C14 as stated. On the square the element `[0, 1]` is
inserted `2^32` times and then the element `[1, 2]`; all `2^32 + 1` calls return.
Afterwards both recorded indices are `0`, and the map has two entries while the
element counter is `1`. -/
theorem insertElementCalls_indices_collide :
    ∃ f', insertElementCalls hostMeshOps squareFactory
        (List.replicate (2 ^ 32) (line, [0, 1]) ++ [(line, [1, 2])]) = (f', 2 ^ 32 + 1) ∧
      f'.insertionIndexMap_.map Prod.snd = [0, 0] ∧
      ¬ (f'.insertionIndexMap_.map Prod.snd).Nodup ∧
      f'.countElements = 1 ∧
      ¬ StdMap.size f'.insertionIndexMap_ ≤ f'.countElements := by
  have hn : 2 ^ 32 - 1 + 1 = 2 ^ 32 := by decide
  have hrun := insertElements_square_repeated (2 ^ 32 - 1)
  rw [hn] at hrun
  have hcalls := insertElementCalls_of_insertElements hostMeshOps _ _ _ hrun
  rw [List.length_append, List.length_replicate] at hcalls
  have hz : (1 + (2 ^ 32 - 1)) % uintModulus = 0 := by decide
  rw [hz] at hcalls
  exact ⟨_, hcalls, rfl, by decide, rfl, by decide⟩

end GridFactory

/-! ## The circumcenter of the 2D interface elements -/

namespace MMeshInterfaceGridGeometry

theorem withEdgeCircumcenter_circumcenter {coorddim : Nat} (base : AffineGeometry coorddim)
    (k : Fin coorddim) :
    (withEdgeCircumcenter base).circumcenter k = (base.corner 0 k + base.corner 1 k) / 2 := by
  simp only [withEdgeCircumcenter, circumcenter]
  norm_num
  ring

/-- The edge opposite to vertex `0` of the triangle `(0,0), (1,0), (0,3)` runs
from `(1,0)` to `(0,3)` and has the circumcenter `(1/2, 3/2)`. -/
theorem circumcenter_example :
    (ofHostEntity0 ({ vertexPoint := ![![0, 0], ![1, 0], ![0, 3]] }, 0)).circumcenter
      = ![1 / 2, 3 / 2] := by
  funext k
  unfold ofHostEntity0
  rw [withEdgeCircumcenter_circumcenter]
  fin_cases k
  · simp [AffineGeometry.corner]
  · simp [AffineGeometry.corner]

/-! ## The circumcenter of the edge elements and the corners of a facet -/

theorem withEdgeCircumcenter_equidistant {coorddim : Nat} (base : AffineGeometry coorddim) :
    squaredDistance (withEdgeCircumcenter base).circumcenter (base.corner 0)
      = squaredDistance (withEdgeCircumcenter base).circumcenter (base.corner 1) := by
  unfold squaredDistance
  apply Finset.sum_congr rfl
  intro k _
  rw [withEdgeCircumcenter_circumcenter]
  ring

/-- C11. For the 2D interface element of codimension 0, built from a bulk facet or
from a pair of vertices, and for the 3D interface element of codimension 1, the
squared distance of the stored circumcenter to `corner(0)` equals its squared
distance to `corner(1)`, in exact arithmetic; the two corners are the two vertices
the element is built from. -/
theorem circumcenter_equidistant (cell : Cell 3 2) (i : Fin 3)
    (vertices : Fin 2 → FieldVector 2) (edge : Cell 4 3 × Fin 4 × Fin 4) :
    (squaredDistance (ofHostEntity0 (cell, i)).circumcenter ((ofHostEntity0 (cell, i)).corner 0)
      = squaredDistance (ofHostEntity0 (cell, i)).circumcenter
          ((ofHostEntity0 (cell, i)).corner 1)) ∧
    (squaredDistance (ofVertices vertices).circumcenter ((ofVertices vertices).corner 0)
      = squaredDistance (ofVertices vertices).circumcenter ((ofVertices vertices).corner 1)) ∧
    (squaredDistance (ofHostEntity1In3D edge).circumcenter ((ofHostEntity1In3D edge).corner 0)
      = squaredDistance (ofHostEntity1In3D edge).circumcenter
          ((ofHostEntity1In3D edge).corner 1)) ∧
    (ofHostEntity1In3D edge).corner 0 = edge.1.vertexPoint edge.2.1 ∧
    (ofHostEntity1In3D edge).corner 1 = edge.1.vertexPoint edge.2.2 :=
  ⟨withEdgeCircumcenter_equidistant _, withEdgeCircumcenter_equidistant _,
   withEdgeCircumcenter_equidistant _, rfl, rfl⟩

/-- The edge from `(1,0,0)` to `(0,3,2)` of a tetrahedron has the circumcenter
`(1/2, 3/2, 1)`, at squared distance `7/2` from both corners. -/
theorem circumcenter_edge_example :
    (ofHostEntity1In3D
        ({ vertexPoint := ![![0, 0, 0], ![1, 0, 0], ![0, 3, 2], ![0, 0, 1]] }, 1, 2)).circumcenter
      = ![1 / 2, 3 / 2, 1] ∧
    squaredDistance (![1 / 2, 3 / 2, 1] : FieldVector 3) ![1, 0, 0] = 7 / 2 ∧
    squaredDistance (![1 / 2, 3 / 2, 1] : FieldVector 3) ![0, 3, 2] = 7 / 2 := by
  refine ⟨?_, ?_, ?_⟩
  · funext k
    unfold ofHostEntity1In3D
    rw [withEdgeCircumcenter_circumcenter]
    fin_cases k <;> simp [AffineGeometry.corner, getVertices1]
  · simp [squaredDistance, Fin.sum_univ_three]
    norm_num
  · simp [squaredDistance, Fin.sum_univ_three]
    norm_num

theorem facetVertexIndices_two (i : Fin 3) :
    facetVertexIndices 2 i.val = [(i.val + 1) % 3, (i.val + 2) % 3] ∧
    (facetVertexIndices 2 i.val).Nodup ∧
    (∀ j ∈ facetVertexIndices 2 i.val, j < 3 ∧ j ≠ i.val) ∧
    (∀ j, j < 3 → j ≠ i.val → j ∈ facetVertexIndices 2 i.val) := by
  fin_cases i <;> decide

theorem facetVertexIndices_three (i : Fin 4) :
    facetVertexIndices 3 i.val = [(i.val + 1) % 4, (i.val + 2) % 4, (i.val + 3) % 4] ∧
    (facetVertexIndices 3 i.val).Nodup ∧
    (∀ j ∈ facetVertexIndices 3 i.val, j < 4 ∧ j ≠ i.val) ∧
    (∀ j, j < 4 → j ≠ i.val → j ∈ facetVertexIndices 3 i.val) := by
  fin_cases i <;> decide

/-- C12. For a bulk facet `(cell, i)` in 2D (`i ≤ 2`) and in 3D (`i ≤ 3`), the
corners of the derived interface element are the vertices of the cell at the local
indices `(i+1) mod (d+1), ..., (i+d) mod (d+1)`, in this order; these indices are
pairwise distinct, lie in `0..d`, differ from `i`, and every index of `0..d` other
than `i` is among them; and in 3D the circumcenter is `CGAL::circumcenter` of
`corner(0), corner(1), corner(2)`, the same three vertices in the same order. -/
theorem facet_corners (cell2 : Cell 3 2) (i2 : Fin 3)
    (cgalCircumcenter : FieldVector 3 → FieldVector 3 → FieldVector 3 → FieldVector 3)
    (cell3 : Cell 4 3) (i3 : Fin 4) :
    ((ofHostEntity0 (cell2, i2)).base.corners
        = (facetVertexIndices 2 i2.val).map cell2.pointAt ∧
      facetVertexIndices 2 i2.val = [(i2.val + 1) % 3, (i2.val + 2) % 3] ∧
      (facetVertexIndices 2 i2.val).Nodup ∧
      (∀ j ∈ facetVertexIndices 2 i2.val, j < 3 ∧ j ≠ i2.val) ∧
      (∀ j, j < 3 → j ≠ i2.val → j ∈ facetVertexIndices 2 i2.val)) ∧
    ((ofHostEntity0In3D cgalCircumcenter (cell3, i3)).base.corners
        = (facetVertexIndices 3 i3.val).map cell3.pointAt ∧
      facetVertexIndices 3 i3.val = [(i3.val + 1) % 4, (i3.val + 2) % 4, (i3.val + 3) % 4] ∧
      (facetVertexIndices 3 i3.val).Nodup ∧
      (∀ j ∈ facetVertexIndices 3 i3.val, j < 4 ∧ j ≠ i3.val) ∧
      (∀ j, j < 4 → j ≠ i3.val → j ∈ facetVertexIndices 3 i3.val) ∧
      (ofHostEntity0In3D cgalCircumcenter (cell3, i3)).circumcenter
        = cgalCircumcenter
            ((ofHostEntity0In3D cgalCircumcenter (cell3, i3)).corner 0)
            ((ofHostEntity0In3D cgalCircumcenter (cell3, i3)).corner 1)
            ((ofHostEntity0In3D cgalCircumcenter (cell3, i3)).corner 2)) := by
  refine ⟨⟨?_, facetVertexIndices_two i2⟩, ⟨?_, ?_⟩⟩
  · fin_cases i2 <;> rfl
  · fin_cases i3 <;> rfl
  · obtain ⟨h1, h2, h3, h4⟩ := facetVertexIndices_three i3
    refine ⟨h1, h2, h3, h4, ?_⟩
    fin_cases i3 <;> rfl

end MMeshInterfaceGridGeometry

/-! ## The carousel driver -/

namespace Carousel

theorem foldl_step_ok_false (trace : List Event) (m : Monitor) (h : m.ok = false) :
    (trace.foldl Monitor.step m).ok = false := by
  induction trace generalizing m with
  | nil => exact h
  | cons e es ih =>
    apply ih
    cases e <;> try exact h
    · next s b => cases b <;> exact h
    · simp [Monitor.step, h]

/-- Reading the trace of the `while` loop: no call of `moveInterface` occurs, and
if the loop is left after at least one pass, or is entered with a certificate for
the current `shifts`, the monitor holds a certificate for the final `shifts`. -/
theorem adaptLoop_monitor (probes : List Probe) (s : Nat) (m : Monitor) :
    ((adaptLoop s probes).trace.foldl Monitor.step m).ok = m.ok ∧
    ((adaptLoop s probes).exit = Exit.completed →
      (m.certified = some s ∨ probes.head? ≠ some Probe.stop) →
      ((adaptLoop s probes).trace.foldl Monitor.step m).certified
        = some (adaptLoop s probes).shifts) := by
  induction probes generalizing s m with
  | nil =>
    refine ⟨rfl, ?_⟩
    intro h
    cases h
  | cons p rest ih =>
    cases p with
    | stop =>
      refine ⟨rfl, ?_⟩
      intro _ h
      rcases h with h | h
      · exact h
      · exact absurd rfl h
    | iterate ok =>
      cases ok with
      | false =>
        refine ⟨rfl, ?_⟩
        intro h
        cases h
      | true =>
        have ih' := ih (s + 1) { m with certified := some (s + 1) }
        simp only [adaptLoop, if_true, List.foldl_append, List.foldl_cons, List.foldl_nil,
          Monitor.step]
        refine ⟨ih'.1, ?_⟩
        intro hexit _
        exact ih'.2 hexit (Or.inl rfl)

/-- If the `while` loop is left after at least one pass, its trace ends with the
returning call of `ensureInterfaceMovement` for the final `shifts` and the call of
`preAdapt` that gave false. -/
theorem adaptLoop_trace_end (probes : List Probe) (s : Nat) (b : Bool)
    (h : (adaptLoop s (Probe.iterate b :: probes)).exit = Exit.completed) :
    ∃ pre, (adaptLoop s (Probe.iterate b :: probes)).trace
      = pre ++ [Event.ensureInterfaceMovement
          (adaptLoop s (Probe.iterate b :: probes)).shifts true, Event.preAdapt false] := by
  induction probes generalizing s b with
  | nil =>
    cases b
    · cases h
    · cases h
  | cons p rest ih =>
    cases b with
    | false => cases h
    | true =>
      cases p with
      | stop =>
        exact ⟨[Event.preAdapt true, Event.adapt, Event.transferCheck, Event.postAdapt,
          Event.assignShifts (s + 1)], rfl⟩
      | iterate b' =>
        have h' : (adaptLoop (s + 1) (Probe.iterate b' :: rest)).exit = Exit.completed := h
        obtain ⟨pre, hpre⟩ := ih (s + 1) b' h'
        refine ⟨[Event.preAdapt true, Event.adapt, Event.transferCheck, Event.postAdapt,
          Event.assignShifts (s + 1), Event.ensureInterfaceMovement (s + 1) true] ++ pre, ?_⟩
        have hunfold : adaptLoop s (Probe.iterate true :: Probe.iterate b' :: rest)
            = { trace := [Event.preAdapt true, Event.adapt, Event.transferCheck, Event.postAdapt,
                  Event.assignShifts (s + 1), Event.ensureInterfaceMovement (s + 1) true]
                  ++ (adaptLoop (s + 1) (Probe.iterate b' :: rest)).trace
                exit := (adaptLoop (s + 1) (Probe.iterate b' :: rest)).exit
                shifts := (adaptLoop (s + 1) (Probe.iterate b' :: rest)).shifts } := rfl
        rw [hunfold]
        dsimp only
        rw [hpre, List.append_assoc]

theorem timeStep_of_completed (dim t : Nat) (probes : List Probe) (hd : ¬ (dim = 3 ∧ t = 9))
    (hexit : (adaptLoop 0 probes).exit = Exit.completed) :
    timeStep dim t probes
      = { trace := [Event.assignShifts 0, Event.markElements, Event.markByDistance]
            ++ (adaptLoop 0 probes).trace
            ++ [Event.moveInterface (adaptLoop 0 probes).shifts, Event.distanceUpdate,
                Event.write]
          exit := Exit.completed
          shifts := (adaptLoop 0 probes).shifts } := by
  unfold timeStep
  rw [if_neg hd]
  simp only [hexit]

theorem timeStep_of_not_completed (dim t : Nat) (probes : List Probe)
    (hd : ¬ (dim = 3 ∧ t = 9)) (hexit : (adaptLoop 0 probes).exit ≠ Exit.completed) :
    timeStep dim t probes
      = { trace := [Event.assignShifts 0, Event.markElements, Event.markByDistance]
            ++ (adaptLoop 0 probes).trace
          exit := (adaptLoop 0 probes).exit
          shifts := (adaptLoop 0 probes).shifts } := by
  unfold timeStep
  rw [if_neg hd]
  dsimp only
  split
  · next h => exact absurd h hexit
  · rfl

/-- C7, as amended. In a time step of the carousel driver in which the first call
of `preAdapt` does not give false, every call `moveInterface( shifts )` is preceded
by a returning call `ensureInterfaceMovement( shifts )` for the same `shifts`, with
no `adapt` and no assignment to `shifts` in between; and when the step runs to
its end, its trace ends with that call of `ensureInterfaceMovement`, the final
call of `preAdapt` giving false, `moveInterface`, `distance.update()` and the
writes. -/
theorem timeStep_moves_certified (dim t : Nat) (probes : List Probe)
    (hfirst : probes.head? ≠ some Probe.stop) :
    movesCertified (timeStep dim t probes).trace = true ∧
    ((timeStep dim t probes).exit = Exit.completed →
      ∃ pre, (timeStep dim t probes).trace
        = pre ++ [Event.ensureInterfaceMovement (timeStep dim t probes).shifts true,
            Event.preAdapt false,
            Event.moveInterface (timeStep dim t probes).shifts,
            Event.distanceUpdate, Event.write]) := by
  by_cases hd : dim = 3 ∧ t = 9
  · have h : timeStep dim t probes = { trace := [], exit := Exit.returned, shifts := 0 } := by
      unfold timeStep
      rw [if_pos hd]
    rw [h]
    refine ⟨rfl, ?_⟩
    intro h'
    cases h'
  · have hmon := adaptLoop_monitor probes 0 { certified := none, ok := true }
    by_cases hexit : (adaptLoop 0 probes).exit = Exit.completed
    · rw [timeStep_of_completed dim t probes hd hexit]
      dsimp only
      constructor
      · have hcert := hmon.2 hexit (Or.inr hfirst)
        simp only [movesCertified, List.foldl_append, List.foldl_cons, List.foldl_nil,
          Monitor.step, hmon.1, hcert, Bool.true_and, decide_True]
      · intro _
        cases probes with
        | nil => cases hexit
        | cons p rest =>
          cases p with
          | stop => exact absurd rfl hfirst
          | iterate b =>
            obtain ⟨pre, hpre⟩ := adaptLoop_trace_end rest 0 b hexit
            refine ⟨[Event.assignShifts 0, Event.markElements, Event.markByDistance] ++ pre, ?_⟩
            rw [hpre]
            simp
    · rw [timeStep_of_not_completed dim t probes hd hexit]
      dsimp only
      refine ⟨?_, fun h => absurd h hexit⟩
      simp only [movesCertified, List.foldl_append, List.foldl_cons, List.foldl_nil,
        Monitor.step, hmon.1]

/-- Witness for C7: a 2D time step in which `preAdapt` gives true twice. -/
theorem timeStep_moves_certified_witness :
    movesCertified
      (timeStep 2 1 [Probe.iterate true, Probe.iterate true, Probe.stop]).trace = true ∧
    (timeStep 2 1 [Probe.iterate true, Probe.iterate true, Probe.stop]).trace
      = [Event.assignShifts 0, Event.markElements, Event.markByDistance,
         Event.preAdapt true, Event.adapt, Event.transferCheck, Event.postAdapt,
         Event.assignShifts 1, Event.ensureInterfaceMovement 1 true,
         Event.preAdapt true, Event.adapt, Event.transferCheck, Event.postAdapt,
         Event.assignShifts 2, Event.ensureInterfaceMovement 2 true,
         Event.preAdapt false, Event.moveInterface 2, Event.distanceUpdate, Event.write] :=
  ⟨(timeStep_moves_certified 2 1 [Probe.iterate true, Probe.iterate true, Probe.stop]
      (by decide)).1, by decide⟩

/-- Counterexample to C7 as stated: in a 2D time step in which the first call of
`preAdapt` gives false, `moveInterface( shifts )` is called and no call of
`ensureInterfaceMovement` precedes it. -/
theorem timeStep_move_not_certified :
    (timeStep 2 1 [Probe.stop]).trace
      = [Event.assignShifts 0, Event.markElements, Event.markByDistance,
         Event.preAdapt false, Event.moveInterface 0, Event.distanceUpdate, Event.write] ∧
    movesCertified (timeStep 2 1 [Probe.stop]).trace = false := by
  decide

end Carousel

end Dune
